import Mathlib

/-!
Verification of the AnTeML element state-machine and attribute-grammar engine.

Shallow embedding of `src/anteml/attributes.py`, `src/anteml/elements.py` and
`src/anteml/parser.py`.  Python strings are Lean `String`s; the per-handler
stack is a Lean list whose head is the top of the Python list (Python appends
and pops at the end); raised `AntemlAttributeError`s become `Except.error`
values paired with the handler state that is left behind at the raise site.
-/

set_option autoImplicit false

namespace Anteml

/-- Embeds `errors.AntemlAttributeError` (the class itself is not in the
sources; it is an exception carrying the message built at each raise site). -/
structure AntemlAttributeError where
  msg : String
deriving Repr, DecidableEq

/-- One HTML-parser attribute: `(name, optional value)`. -/
abbrev Attr := String × Option String

abbrev Attrs := List Attr

/-- Models Python `str.lower` on a single character (ASCII range, which is all
the markup vocabulary uses): uppercase `A`-`Z` (codepoints 65-90) map 32 up. -/
def pyLowerChar (c : Char) : Char :=
  if 65 ≤ c.toNat ∧ c.toNat ≤ 90 then Char.ofNat (c.toNat + 32) else c

/-- Models Python `str.lower` (ASCII-faithful). -/
def pyLower (s : String) : String :=
  ⟨s.data.map pyLowerChar⟩

/-- Models a lookup in a Python `dict` built from a literal list of pairs:
for a duplicated key the *last* binding wins, so we look the key up in the
reversed association list. -/
def pyDictLookup {α : Type} (l : List (String × α)) (k : String) : Option α :=
  l.reverse.lookup k

/-- The mutable state of an `Element` handler (`elements.Element`):
`stack` is `self.stack` (head = top), `state` is `self.state`
(`none` = Python `None`). -/
structure ElemState where
  stack : List String
  state : Option String
deriving Repr, DecidableEq

/-- `Element.__init__`: empty stack, state `None`. -/
def ElemState.init : ElemState := ⟨[], none⟩

/-- `Element.push_state`: push the current `state` (or `default` on first
activation) onto the stack, set `state` to the new code, return the new code. -/
def pushState (default : String) (s : ElemState) (new : String) : String × ElemState :=
  match s.state with
  | some cur => (new, ⟨cur :: s.stack, some new⟩)
  | none     => (new, ⟨default :: s.stack, some new⟩)

/-- `Element.pop_state`: pop the top of the stack (substituting `default` when
the stack is empty), set `state` to it and return it. -/
def popState (default : String) (s : ElemState) : String × ElemState :=
  match s.stack with
  | []          => (default, ⟨[], some default⟩)
  | top :: rest => (top, ⟨rest, some top⟩)

/-- A sequence of `push_state` calls with the given codes. -/
def runPushes (default : String) (s : ElemState) : List String → ElemState
  | [] => s
  | c :: cs => runPushes default (pushState default s c).2 cs

/-- `n` successive `pop_state` calls; returns the popped codes in call order
together with the final handler state. -/
def runPops (default : String) (s : ElemState) : Nat → List String × ElemState
  | 0 => ([], s)
  | n + 1 =>
    let p := popState default s
    let r := runPops default p.2 n
    (p.1 :: r.1, r.2)

/-- The codes that are current immediately before each push when codes `cs`
are pushed onto a handler whose current state is `c` (in push order). -/
def framesBefore (c : String) : List String → List String
  | [] => []
  | c1 :: cs => c :: framesBefore c1 cs

/-! ## Value grammars (`src/anteml/attributes.py`) -/

namespace Color

/-- `\d` of `Color.decimal_pattern` (ASCII digits `0`-`9`, codepoints 48-57). -/
def isDigitChar (c : Char) : Bool :=
  decide (48 ≤ c.toNat) && decide (c.toNat ≤ 57)

/-- The body of `Color.decimal_pattern` after the leading `D`:
`\d{1,2}|[01]?\d{2}|2[0-4]\d|25[0-5]` as a full match.  Lengths 1 and 2 are
covered by `\d{1,2}` (and `[01]?\d{2}` adds nothing new at length 2); at
length 3 the alternatives are `[01]\d{2}`, `2[0-4]\d` and `25[0-5]`
(codepoints: `0` = 48, `1` = 49, `2` = 50, `4` = 52, `5` = 53). -/
def decimalBody : List Char → Bool
  | [a] => isDigitChar a
  | [a, b] => isDigitChar a && isDigitChar b
  | [a, b, c] =>
      (decide (a.toNat = 48 ∨ a.toNat = 49) && isDigitChar b && isDigitChar c)
      || (decide (a.toNat = 50) && decide (48 ≤ b.toNat ∧ b.toNat ≤ 52) && isDigitChar c)
      || (decide (a.toNat = 50) && decide (b.toNat = 53) && decide (48 ≤ c.toNat ∧ c.toNat ≤ 53))
  | _ => false

/-- `[0-9A-F]` of `Color.hex_pattern` with `re.IGNORECASE`, applied to an
already lower-cased string: effectively `[0-9a-f]` (`a` = 97, `f` = 102). -/
def isHexLowerChar (c : Char) : Bool :=
  isDigitChar c || (decide (97 ≤ c.toNat) && decide (c.toNat ≤ 102))

/-- The body of `Color.hex_pattern` after the leading `X`:
`[0-9A-F]{3}|[0-9A-F]{6}` as a full match. -/
def hexBody (cs : List Char) : Bool :=
  (cs.length == 3 || cs.length == 6) && cs.all isHexLowerChar

/-- `Color.names`: name, foreground code, background code. -/
def names : List (String × String × String) :=
  [("black",   "30", "40"),
   ("red",     "31", "41"),
   ("green",   "32", "42"),
   ("yellow",  "33", "43"),
   ("blue",    "34", "44"),
   ("magenta", "35", "45"),
   ("cyan",    "36", "46"),
   ("white",   "37", "47"),
   ("default", "39", "49")]

/-- `"".join(f"{c}{c}" for c in v)`: double every character. -/
def doubleChars : List Char → List Char
  | [] => []
  | c :: cs => c :: c :: doubleChars cs

/-- `str.lstrip("0")`: drop leading `0` characters. -/
def stripZeros (ds : List Char) : List Char :=
  ds.dropWhile (fun c => c == '0')

/-- `Color.decimal_pattern.fullmatch`: a leading `D` (lowered: `d`) followed
by the alternation body. -/
def decMatch : List Char → Bool
  | c :: ds => c == 'd' && decimalBody ds
  | [] => false

/-- `Color.hex_pattern.fullmatch`: a leading `X` (lowered: `x`) followed by
3 or 6 hex digits. -/
def hexMatch : List Char → Bool
  | c :: hs => c == 'x' && hexBody hs
  | [] => false

/-- `Color.parse`.  The process-wide memoization cache is omitted: it is keyed
by the lower-cased input and stores exactly the value computed below, so the
cached function is extensionally this one.  `match[0]` of a fullmatch is the
whole (lower-cased) input, so `match[0][1:]` is `v.data.drop 1`. -/
def parse (value : String) : Option (String × String × String) :=
  let v := pyLower value
  match pyDictLookup names v with
  | some (fg, bg) => some ("name", fg, bg)
  | none =>
    if decMatch v.data then
      let p : String := ⟨stripZeros (v.data.drop 1)⟩
      some ("decimal", p, p)
    else if hexMatch v.data then
      let hs := v.data.drop 1
      let h6 := if hs.length == 3 then doubleChars hs else hs
      some ("hex", ⟨h6⟩, ⟨h6⟩)
    else none

end Color

namespace FontWeight

/-- `FontWeight.weights`. -/
def weights : List (String × String) :=
  [("bold", "1"), ("normal", "22"), ("light", "2"), ("default", "22")]

/-- `FontWeight.parse`. -/
def parse (value : String) : Option String :=
  pyDictLookup weights (pyLower value)

end FontWeight

namespace Boolean

/-- `Boolean.truthy_values`. -/
def truthyValues : List String := ["1", "yes", "on", "true"]

/-- `Boolean.falsy_values`. -/
def falsyValues : List String := ["0", "no", "off", "false"]

/-- `Boolean.parse`. -/
def parse (value : String) : Option Bool :=
  let v := pyLower value
  if truthyValues.contains v then some true
  else if falsyValues.contains v then some false
  else none

end Boolean

namespace ScreenMode

/-- `ScreenMode.modes`, in source order: name, code, description.  The source
dict literal lists `"320x200c"` twice (codes `13` and `19`) and spells one key
`"640X200m"` with an upper-case `X`. -/
def modes : List (String × String × String) :=
  [("40x24m",    "0",  "40 x 25 monochrome text"),
   ("40x25c",    "1",  "40 x 25 color text"),
   ("80x25m",    "2",  "80 x 25 monochrome text"),
   ("80x25c",    "3",  "80 x 25 color text"),
   ("320x200c4", "4",  "320 x 200 4-color graphics"),
   ("320x200m",  "5",  "320 x 200 monochrome graphics"),
   ("640X200m",  "6",  "640 x 200 monochrome graphics"),
   ("320x200c",  "13", "320 x 200 color graphics"),
   ("640x200c",  "14", "640 x 200 16-color graphics"),
   ("640x350m",  "15", "640 x 350 monochrome 2-color graphics"),
   ("640x350c",  "16", "640 x 350 16-color graphics"),
   ("640x480m",  "17", "640 x 480 monochrome 2-color graphics"),
   ("640x480c",  "18", "640 x 480 16-color graphics"),
   ("320x200c",  "19", "320 x 200 256-color graphics")]

/-- `ScreenMode.parse`: lower-case the value, look it up in the dict built
from `modes` (last binding wins for the duplicated key), return the code. -/
def parse (value : String) : Option String :=
  (pyDictLookup modes (pyLower value)).map (fun e => e.1)

end ScreenMode

/-! ## Concrete elements (`src/anteml/elements.py`) -/

/-- Result of an element's `start`: the returned fragment or the raised
`AntemlAttributeError`, together with the handler state after the call
(errors are raised before any mutation, so they carry the entry state). -/
abbrev StartResult := Except AntemlAttributeError String × ElemState

namespace AntemlElement

def tag : String := "anteml"

def defaultCode : String := ""

/-- `AntemlElement.start`: no validation, no state change, empty fragment. -/
def start (_attrs : Attrs) (s : ElemState) : StartResult := (.ok "", s)

/-- `AntemlElement.end` (`end` is a Lean keyword, hence `close`). -/
def close (s : ElemState) : String × ElemState := ("", s)

end AntemlElement

namespace BrElement

def tag : String := "br"

def defaultCode : String := "\n"

/-- `BrElement.start`: rejects any attribute, emits the newline `default`
without touching the stack. -/
def start (attrs : Attrs) (s : ElemState) : StartResult :=
  if attrs.length > 0 then
    (.error ⟨"<BR> tag does not accept attributes (0 expected, " ++
      toString attrs.length ++ " given)"⟩, s)
  else (.ok defaultCode, s)

/-- `BrElement.end`. -/
def close (s : ElemState) : String × ElemState := ("", s)

end BrElement

namespace FwElement

def tag : String := "fw"

def defaultCode : String := "\x1b[22m"

/-- `FwElement.start`.  Python tests `if fw := FontWeight.parse(...)`; every
code in the weights table is a nonempty string, so truthiness coincides with
the parse having succeeded. -/
def start (attrs : Attrs) (s : ElemState) : StartResult :=
  match attrs with
  | [(name, _)] =>
    match FontWeight.parse name with
    | some fw =>
        let code := defaultCode ++ "\x1b[" ++ fw ++ "m"
        let p := pushState defaultCode s code
        (.ok p.1, p.2)
    | none =>
        (.error ⟨"Invalid #FONTWEIGHT attribute '" ++ name ++ "' on <FW> tag"⟩, s)
  | _ =>
    (.error ⟨"<FW> tag has the incorrect number of attributes (exactly 1 expected, " ++
      toString attrs.length ++ " given)"⟩, s)

/-- `FwElement.end`. -/
def close (s : ElemState) : String × ElemState := popState defaultCode s

end FwElement

/-- `textwrap.wrap(s, 2)` on a plain string: split into chunks of two
characters (a trailing odd character forms a chunk of its own). -/
def chunk2 : List Char → List (List Char)
  | [] => []
  | [a] => [[a]]
  | a :: b :: rest => [a, b] :: chunk2 rest

/-- `int(s, 16)` for a lower-case hex digit (`0`-`9` then `a`-`f`). -/
def hexDigitVal (c : Char) : Nat :=
  if c.toNat ≤ 57 then c.toNat - 48 else c.toNat - 87

/-- `int(s, 16)` for a lower-case hex string. -/
def hexVal (cs : List Char) : Nat :=
  cs.foldl (fun n c => 16 * n + hexDigitVal c) 0

namespace FgElement

def tag : String := "fg"

def defaultCode : String := "\x1b[39m"

/-- `FgElement.start`.  The hex branch destructures `wrap(color_fg, 2)` into
exactly three two-character *strings* (no base-16 conversion, unlike `BG`);
the payload always has six characters, the catch-all keeps the match total.
Python initialises `code = ""` and pushes it unchanged for any kind outside
the `if`/`elif` chain. -/
def start (attrs : Attrs) (s : ElemState) : StartResult :=
  match attrs with
  | [(name, _)] =>
    match Color.parse name with
    | some (colorT, colorFg, _) =>
        let code : String :=
          if colorT = "name" then "\x1b[" ++ colorFg ++ "m"
          else if colorT = "decimal" then "\x1b[38;5;" ++ colorFg ++ "m"
          else if colorT = "hex" then
            match chunk2 colorFg.data with
            | [r, g, b] =>
                "\x1b[38;2;" ++ String.mk r ++ ";" ++ String.mk g ++ ";" ++
                  String.mk b ++ "m"
            | _ => ""
          else ""
        let p := pushState defaultCode s code
        (.ok p.1, p.2)
    | none =>
        (.error ⟨"Invalid #COLOR attribute '" ++ name ++ "' on <FG> tag"⟩, s)
  | _ =>
    (.error ⟨"<FG> tag has the incorrect number of attributes (exactly 1 expected, " ++
      toString attrs.length ++ " given)"⟩, s)

/-- `FgElement.end`. -/
def close (s : ElemState) : String × ElemState := popState defaultCode s

end FgElement

namespace BgElement

def tag : String := "bg"

def defaultCode : String := "\x1b[49m"

/-- `BgElement.start`: like `FG` but uses the background payload, the `48;…`
forms, and converts each hex pair with `int(c, 16)`. -/
def start (attrs : Attrs) (s : ElemState) : StartResult :=
  match attrs with
  | [(name, _)] =>
    match Color.parse name with
    | some (colorT, _, colorBg) =>
        let code : String :=
          if colorT = "name" then "\x1b[" ++ colorBg ++ "m"
          else if colorT = "decimal" then "\x1b[48;5;" ++ colorBg ++ "m"
          else if colorT = "hex" then
            match chunk2 colorBg.data with
            | [r, g, b] =>
                "\x1b[48;2;" ++ toString (hexVal r) ++ ";" ++ toString (hexVal g) ++
                  ";" ++ toString (hexVal b) ++ "m"
            | _ => ""
          else ""
        let p := pushState defaultCode s code
        (.ok p.1, p.2)
    | none =>
        (.error ⟨"Invalid #COLOR attribute '" ++ name ++ "' on <BG> tag"⟩, s)
  | _ =>
    (.error ⟨"<BG> tag has the incorrect number of attributes (exactly 1 expected, " ++
      toString attrs.length ++ " given)"⟩, s)

/-- `BgElement.end`. -/
def close (s : ElemState) : String × ElemState := popState defaultCode s

end BgElement

/-- Shared shape of the no-attribute style elements (`I`, `U`, `S`, `BLINK`,
`INVERT`, `HIDE`): reject any attribute, otherwise push a fixed set-code. -/
def noAttrStart (tagMark code dflt : String) (attrs : Attrs) (s : ElemState) : StartResult :=
  if attrs.length > 0 then
    (.error ⟨"<" ++ tagMark ++ "> tag does not accept attributes (0 expected, " ++
      toString attrs.length ++ " given)"⟩, s)
  else
    let p := pushState dflt s code
    (.ok p.1, p.2)

namespace IElement
def tag : String := "i"
def defaultCode : String := "\x1b[23m"
def start (attrs : Attrs) (s : ElemState) : StartResult :=
  noAttrStart "I" "\x1b[3m" defaultCode attrs s
def close (s : ElemState) : String × ElemState := popState defaultCode s
end IElement

namespace UElement
def tag : String := "u"
def defaultCode : String := "\x1b[24m"
def start (attrs : Attrs) (s : ElemState) : StartResult :=
  noAttrStart "U" "\x1b[4m" defaultCode attrs s
def close (s : ElemState) : String × ElemState := popState defaultCode s
end UElement

namespace SElement
def tag : String := "s"
def defaultCode : String := "\x1b[29m"
def start (attrs : Attrs) (s : ElemState) : StartResult :=
  noAttrStart "S" "\x1b[9m" defaultCode attrs s
def close (s : ElemState) : String × ElemState := popState defaultCode s
end SElement

namespace BlinkElement
def tag : String := "blink"
def defaultCode : String := "\x1b[25m"
def start (attrs : Attrs) (s : ElemState) : StartResult :=
  noAttrStart "BLINK" "\x1b[5m" defaultCode attrs s
def close (s : ElemState) : String × ElemState := popState defaultCode s
end BlinkElement

namespace InvertElement
def tag : String := "invert"
def defaultCode : String := "\x1b[27m"
def start (attrs : Attrs) (s : ElemState) : StartResult :=
  noAttrStart "INVERT" "\x1b[7m" defaultCode attrs s
def close (s : ElemState) : String × ElemState := popState defaultCode s
end InvertElement

namespace HideElement
def tag : String := "hide"
def defaultCode : String := "\x1b[28m"
def start (attrs : Attrs) (s : ElemState) : StartResult :=
  noAttrStart "HIDE" "\x1b[8m" defaultCode attrs s
def close (s : ElemState) : String × ElemState := popState defaultCode s
end HideElement

namespace ScreenElement

def tag : String := "screen"

def defaultCode : String := "\x1b7h"

/-- `ScreenElement._determine_screen_mode`.  Python formats the bad value with
`{value!r}`; for the plain strings at issue that is the value between single
quotes.  The misspelling `Invalide` is the source's. -/
def determineScreenMode : Option String → Except AntemlAttributeError String
  | none => .error ⟨"Attribute 'MODE' specified without value on <SCREEN> tag"⟩
  | some value =>
    match ScreenMode.parse value with
    | none => .error ⟨"Invalide value '" ++ value ++ "' for 'MODE' attribute on <SCREEN> tag"⟩
    | some v => .ok v

/-- `ScreenElement._determine_line_wrap`. -/
def determineLineWrap : Option String → Except AntemlAttributeError Bool
  | none => .error ⟨"Attribute 'WRAP' specified without value on <SCREEN> tag"⟩
  | some value =>
    match Boolean.parse value with
    | none => .error ⟨"Invalide value '" ++ value ++ "' for 'WRAP' attribute on <SCREEN> tag"⟩
    | some v => .ok v

/-- The attribute loop of `ScreenElement.start`, carrying the `screen_mode`
and `line_wrap` accumulators.  The two Python `if`s are exclusive (a lowered
name cannot be both `"mode"` and `"wrap"`). -/
def screenScan : Attrs → Option String → Option Bool →
    Except AntemlAttributeError (Option String × Option Bool)
  | [], m, w => .ok (m, w)
  | (an, av) :: rest, m, w =>
    let an := pyLower an
    if an = "mode" then
      match m with
      | some _ => .error ⟨"Attribute 'MODE' specified more than once on <SCREEN> tag"⟩
      | none =>
        match determineScreenMode av with
        | .error e => .error e
        | .ok v => screenScan rest (some v) w
    else if an = "wrap" then
      match w with
      | some _ => .error ⟨"Attribute 'WRAP' specified more than once on <SCREEN> tag"⟩
      | none =>
        match determineLineWrap av with
        | .error e => .error e
        | .ok v => screenScan rest m (some v)
    else screenScan rest m w

/-- `ScreenElement.start`: length check, attribute loop, then build the open
fragment (`start_code`) and the close fragment (`end_code`, whose wrap part is
`ESC[=7h` for both wrap values) and call `push_state(end_code)`, returning
`start_code`. -/
def start (attrs : Attrs) (s : ElemState) : StartResult :=
  if attrs.length > 2 then
    (.error ⟨"<SCREEN> tag has too many attributes (max. 2 expected, " ++
      toString attrs.length ++ " given)"⟩, s)
  else
    match screenScan attrs none none with
    | .error e => (.error e, s)
    | .ok (screenMode, lineWrap) =>
      let startCode :=
        (match screenMode with | some sm => "\x1b[=" ++ sm ++ "h" | none => "")
        ++ (match lineWrap with
            | some true => "\x1b[=7h" | some false => "\x1b[=7l" | none => "")
      let endCode :=
        (match lineWrap with | some _ => "\x1b[=7h" | none => "")
        ++ (match screenMode with | some sm => "\x1b[=" ++ sm ++ "l" | none => "")
      let p := pushState defaultCode s endCode
      (.ok startCode, p.2)

/-- `ScreenElement.end`. -/
def close (s : ElemState) : String × ElemState := popState defaultCode s

end ScreenElement

/-! ## Alias resolution and dispatch (`src/anteml/parser.py`) -/

/-- `AntemlParser.resolve_starttag_alias` for the default element map, whose
only aliases are `b` (→ `FW` with a synthesized bare `bold` attribute) and
`l` (→ `FW` with `light`); `BElementAlias.start`/`LElementAlias.start` reject
any supplied attribute. -/
def resolveStarttagAlias (tag : String) (attrs : Attrs) :
    Except AntemlAttributeError (String × Attrs) :=
  if tag = "b" then
    if attrs.length > 0 then
      .error ⟨"<B> tag does not accept attributes (0 expected, " ++
        toString attrs.length ++ " given)"⟩
    else .ok ("fw", [("bold", none)])
  else if tag = "l" then
    if attrs.length > 0 then
      .error ⟨"<L> tag does not accept attributes (0 expected, " ++
        toString attrs.length ++ " given)"⟩
    else .ok ("fw", [("light", none)])
  else .ok (tag, attrs)

/-- `AntemlParser.resolve_endtag_alias` for the default element map. -/
def resolveEndtagAlias (tag : String) : String :=
  if tag = "b" then "fw" else if tag = "l" then "fw" else tag

/-- The per-tag handler instances owned by one `AntemlParser` (the default
`element_map`; the alias entries `b`/`l` hold no state). -/
structure ParserState where
  anteml : ElemState
  br : ElemState
  bg : ElemState
  fg : ElemState
  fw : ElemState
  i : ElemState
  u : ElemState
  s : ElemState
  blink : ElemState
  hide : ElemState
  invert : ElemState
  screen : ElemState
deriving Repr, DecidableEq

def ParserState.init : ParserState :=
  ⟨.init, .init, .init, .init, .init, .init, .init, .init, .init, .init, .init, .init⟩

/-- Whether the tag is registered as an alias in the default element map. -/
def isAliasTag (tag : String) : Bool := tag == "b" || tag == "l"

/-- Invoke the concrete handler's `start` for a canonical tag; `none` when the
tag has no concrete handler. -/
def dispatchStart (tag : String) (attrs : Attrs) (ps : ParserState) :
    Option (Except AntemlAttributeError String × ParserState) :=
  match tag with
  | "anteml" => let r := AntemlElement.start attrs ps.anteml; some (r.1, { ps with anteml := r.2 })
  | "br" => let r := BrElement.start attrs ps.br; some (r.1, { ps with br := r.2 })
  | "bg" => let r := BgElement.start attrs ps.bg; some (r.1, { ps with bg := r.2 })
  | "fg" => let r := FgElement.start attrs ps.fg; some (r.1, { ps with fg := r.2 })
  | "fw" => let r := FwElement.start attrs ps.fw; some (r.1, { ps with fw := r.2 })
  | "i" => let r := IElement.start attrs ps.i; some (r.1, { ps with i := r.2 })
  | "u" => let r := UElement.start attrs ps.u; some (r.1, { ps with u := r.2 })
  | "s" => let r := SElement.start attrs ps.s; some (r.1, { ps with s := r.2 })
  | "blink" => let r := BlinkElement.start attrs ps.blink; some (r.1, { ps with blink := r.2 })
  | "hide" => let r := HideElement.start attrs ps.hide; some (r.1, { ps with hide := r.2 })
  | "invert" => let r := InvertElement.start attrs ps.invert; some (r.1, { ps with invert := r.2 })
  | "screen" => let r := ScreenElement.start attrs ps.screen; some (r.1, { ps with screen := r.2 })
  | _ => none

/-- Invoke the concrete handler's `end` for a canonical tag. -/
def dispatchEnd (tag : String) (ps : ParserState) : Option (String × ParserState) :=
  match tag with
  | "anteml" => let r := AntemlElement.close ps.anteml; some (r.1, { ps with anteml := r.2 })
  | "br" => let r := BrElement.close ps.br; some (r.1, { ps with br := r.2 })
  | "bg" => let r := BgElement.close ps.bg; some (r.1, { ps with bg := r.2 })
  | "fg" => let r := FgElement.close ps.fg; some (r.1, { ps with fg := r.2 })
  | "fw" => let r := FwElement.close ps.fw; some (r.1, { ps with fw := r.2 })
  | "i" => let r := IElement.close ps.i; some (r.1, { ps with i := r.2 })
  | "u" => let r := UElement.close ps.u; some (r.1, { ps with u := r.2 })
  | "s" => let r := SElement.close ps.s; some (r.1, { ps with s := r.2 })
  | "blink" => let r := BlinkElement.close ps.blink; some (r.1, { ps with blink := r.2 })
  | "hide" => let r := HideElement.close ps.hide; some (r.1, { ps with hide := r.2 })
  | "invert" => let r := InvertElement.close ps.invert; some (r.1, { ps with invert := r.2 })
  | "screen" => let r := ScreenElement.close ps.screen; some (r.1, { ps with screen := r.2 })
  | _ => none

/-- `AntemlParser.handle_starttag`: lower-case, resolve aliases (whose errors
propagate), invoke the handler — its error propagates uncaught — or apply the
unknown-tag policy (`origText` stands for `get_starttag_text()`).  A resolved
tag that still names an alias would fail the `isinstance` guard and produce no
output.  Returns the fragments passed to `output` and the new state. -/
def handleStarttag (tag : String) (attrs : Attrs) (origText : String)
    (stripUnknown : Bool) (ps : ParserState) :
    Except AntemlAttributeError (List String × ParserState) :=
  match resolveStarttagAlias (pyLower tag) attrs with
  | .error e => .error e
  | .ok (tag2, attrs2) =>
    match dispatchStart tag2 attrs2 ps with
    | some (.error e, _) => .error e
    | some (.ok v, ps2) => .ok ([v], ps2)
    | none =>
      if isAliasTag tag2 then .ok ([], ps)
      else if stripUnknown then .ok ([], ps)
      else .ok ([origText], ps)

/-- `AntemlParser.handle_endtag`: lower-case, resolve aliases, invoke the
handler's `end`, or apply the unknown-tag policy with the original tag text. -/
def handleEndtag (tag : String) (stripUnknown : Bool) (ps : ParserState) :
    List String × ParserState :=
  let t := resolveEndtagAlias (pyLower tag)
  match dispatchEnd t ps with
  | some (v, ps2) => ([v], ps2)
  | none =>
    if isAliasTag t then ([], ps)
    else if stripUnknown then ([], ps)
    else (["</" ++ tag ++ ">"], ps)

/-- One tag event from the tokenizer boundary. -/
inductive Ev where
  | startTag (tag : String) (attrs : Attrs) (origText : String)
  | endTag (tag : String)
deriving Repr, DecidableEq

/-- Dispatch one event. -/
def stepEv (stripUnknown : Bool) (ps : ParserState) : Ev →
    Except AntemlAttributeError (List String × ParserState)
  | .startTag t a o => handleStarttag t a o stripUnknown ps
  | .endTag t => .ok (handleEndtag t stripUnknown ps)

/-- Dispatch a sequence of events: fragments emitted before a raise are kept,
and a raise aborts the rest of the document. -/
def runEvents (stripUnknown : Bool) (ps : ParserState) :
    List Ev → List String × Except AntemlAttributeError ParserState
  | [] => ([], .ok ps)
  | e :: rest =>
    match stepEv stripUnknown ps e with
    | .error err => ([], .error err)
    | .ok (out, ps2) =>
      let r := runEvents stripUnknown ps2 rest
      (out ++ r.1, r.2)

/-! ## Abstract start/end runs and spec-side notions -/

/-- A dispatched start/end sequence on one stack-using handler: `some c`
opens with code `c` (the handler's `start` calls `push_state c`), `none`
closes (its `end` calls `pop_state`). -/
def pushPopRun (d : String) (s : ElemState) : List (Option String) → ElemState
  | [] => s
  | some c :: evs => pushPopRun d (pushState d s c).2 evs
  | none :: evs => pushPopRun d (popState d s).2 evs

/-- Nesting depth of the tag type in the document seen so far, an unmatched
close not going below zero (spec §3). -/
def nestingDepthAux (n : Nat) : List (Option String) → Nat
  | [] => n
  | some _ :: evs => nestingDepthAux (n + 1) evs
  | none :: evs => nestingDepthAux (n - 1) evs

def nestingDepth (evs : List (Option String)) : Nat := nestingDepthAux 0 evs

/-- The codes of the still-open instances, innermost first (spec-side). -/
def openCodesAux (os : List String) : List (Option String) → List String
  | [] => os
  | some c :: evs => openCodesAux (c :: os) evs
  | none :: evs => openCodesAux os.tail evs

def openCodes (evs : List (Option String)) : List String := openCodesAux [] evs

/-- Relation between a handler state and the spec-side open-codes list:
with open instances the state is the innermost code and the stack holds the
outer codes over the `default` sentinel; with none it is empty and the state
is untouched or restored to `default`. -/
def StackInv (d : String) (r : ElemState) (os : List String) : Prop :=
  match os with
  | [] => r.stack = [] ∧ (r.state = none ∨ r.state = some d)
  | c :: rest => r.state = some c ∧ r.stack = rest ++ [d]

/-- Whether an element call raised. -/
def raised {α : Type} : Except AntemlAttributeError α → Bool
  | .error _ => true
  | .ok _ => false

/-- `msg` contains `sub` as a substring. -/
def mentionsStr (msg sub : String) : Prop := ∃ a b : String, msg = a ++ sub ++ b

/-- Spec-side error condition for the no-attribute tags (`BR`, `I`, `U`, `S`,
`BLINK`, `INVERT`, `HIDE`): a wrong attribute count is any attribute at all. -/
def zeroAttrSpecErr (attrs : Attrs) : Bool := decide (attrs.length ≠ 0)

/-- Spec-side error condition for `FW`: wrong count or a bare attribute that
fails the font-weight grammar. -/
def fwSpecErr (attrs : Attrs) : Bool :=
  decide (attrs.length ≠ 1) ||
    (match attrs with | [(n, _)] => (FontWeight.parse n).isNone | _ => false)

/-- Spec-side error condition for `FG`/`BG`: wrong count or a bare attribute
that fails the color grammar. -/
def colorSpecErr (attrs : Attrs) : Bool :=
  decide (attrs.length ≠ 1) ||
    (match attrs with | [(n, _)] => (Color.parse n).isNone | _ => false)

def isModeAttr (a : Attr) : Bool := pyLower a.1 == "mode"

def isWrapAttr (a : Attr) : Bool := pyLower a.1 == "wrap"

/-- A `MODE` attribute whose value is missing or fails the grammar. -/
def badModeVal (a : Attr) : Bool :=
  match a.2 with
  | none => true
  | some v => (ScreenMode.parse v).isNone

/-- A `WRAP` attribute whose value is missing or fails the grammar. -/
def badWrapVal (a : Attr) : Bool :=
  match a.2 with
  | none => true
  | some v => (Boolean.parse v).isNone

/-- Spec-side error condition for `SCREEN` (spec §4.3: 0–2 attributes, named
`mode`/`wrap`, each at most once): more than two attributes, a repeated
`MODE`/`WRAP`, a missing required value, or a value failing its grammar. -/
def screenSpecErr (attrs : Attrs) : Bool :=
  decide (attrs.length > 2)
  || decide (2 ≤ attrs.countP isModeAttr)
  || decide (2 ≤ attrs.countP isWrapAttr)
  || attrs.any (fun a => isModeAttr a && badModeVal a)
  || attrs.any (fun a => isWrapAttr a && badWrapVal a)

/-- Numeric value of an ASCII digit string. -/
def digitsToNat (ds : List Char) : Nat :=
  ds.foldl (fun n c => 10 * n + (c.toNat - 48)) 0

/-- C8's named surface form: the lowered input is a key of the names table. -/
def isNamedForm (v : String) : Prop :=
  (pyDictLookup Color.names (pyLower v)).isSome = true

/-- C8's decimal surface form: literal `D` then 1–3 digits with value 0–255. -/
def isDecimalForm (v : String) : Prop :=
  ∃ ds : List Char, (pyLower v).data = 'd' :: ds ∧ ds ≠ [] ∧ ds.length ≤ 3 ∧
    (∀ c ∈ ds, Color.isDigitChar c = true) ∧ digitsToNat ds ≤ 255

/-- C8's hex surface form: literal `X` then 3 or 6 hex digits. -/
def isHexForm (v : String) : Prop :=
  ∃ hs : List Char, (pyLower v).data = 'x' :: hs ∧ (hs.length = 3 ∨ hs.length = 6) ∧
    (∀ c ∈ hs, Color.isHexLowerChar c = true)

/-- Interchangeability of an alias tag event with its canonical form (C4):
`<B>` with `<FW BOLD>`, `<L>` with `<FW LIGHT>`, closes likewise; the
original-text fields may differ since they are only used for unknown tags. -/
inductive EvEquiv : Ev → Ev → Prop where
  | refl (e : Ev) : EvEquiv e e
  | symm {e1 e2 : Ev} : EvEquiv e1 e2 → EvEquiv e2 e1
  | bOpen (o1 o2 : String) : EvEquiv (.startTag "b" [] o1) (.startTag "fw" [("bold", none)] o2)
  | lOpen (o1 o2 : String) : EvEquiv (.startTag "l" [] o1) (.startTag "fw" [("light", none)] o2)
  | bClose : EvEquiv (.endTag "b") (.endTag "fw")
  | lClose : EvEquiv (.endTag "l") (.endTag "fw")

/-! ## Proofs -/

lemma framesBefore_length (cs : List String) : ∀ c, (framesBefore c cs).length = cs.length := by
  induction cs with
  | nil => intro c; rfl
  | cons c1 cs ih => intro c; simp [framesBefore, ih]

lemma framesBefore_eq_dropLast (cs : List String) :
    ∀ c, framesBefore c cs = (c :: cs).dropLast := by
  induction cs with
  | nil => intro c; rfl
  | cons c1 cs ih =>
    intro c
    simp only [framesBefore, ih]
    rcases cs with _ | ⟨c2, cs⟩ <;> simp [List.dropLast]

lemma runPushes_some (d : String) (cs : List String) :
    ∀ (st : List String) (c : String),
      runPushes d ⟨st, some c⟩ cs =
        ⟨(framesBefore c cs).reverse ++ st, some (cs.getLastD c)⟩ := by
  induction cs with
  | nil => intro st c; simp [runPushes, framesBefore]
  | cons c1 cs ih =>
    intro st c
    simp only [runPushes, pushState, framesBefore]
    rw [ih]
    simp only [List.getLastD_cons, List.reverse_cons, List.append_assoc,
      List.singleton_append]

lemma runPops_all_fst (d : String) (st : List String) :
    ∀ σ, (runPops d ⟨st, σ⟩ st.length).1 = st := by
  induction st with
  | nil => intro σ; rfl
  | cons a rest ih =>
    intro σ
    simp only [List.length_cons, runPops, popState]
    exact congrArg (a :: ·) (ih (some a))

lemma runPops_all_stack (d : String) (st : List String) :
    ∀ σ, (runPops d ⟨st, σ⟩ st.length).2.stack = [] := by
  induction st with
  | nil => intro σ; rfl
  | cons a rest ih =>
    intro σ
    simp only [List.length_cons, runPops, popState]
    exact ih (some a)

lemma runPops_add (d : String) (m n : Nat) :
    ∀ s : ElemState,
      runPops d s (m + n) =
        ((runPops d s m).1 ++ (runPops d (runPops d s m).2 n).1,
          (runPops d (runPops d s m).2 n).2) := by
  induction m with
  | zero => intro s; simp [runPops]
  | succ m ih =>
    intro s
    have h : m + 1 + n = (m + n) + 1 := by omega
    rw [h]
    simp only [runPops]
    rw [ih]
    simp

lemma runPops_empty_fst (d : String) (k : Nat) :
    ∀ σ, (runPops d ⟨[], σ⟩ k).1 = List.replicate k d := by
  induction k with
  | zero => intro σ; rfl
  | succ k ih =>
    intro σ
    simp only [runPops, popState, List.replicate]
    exact congrArg (d :: ·) (ih (some d))

/-- **C1.** For any handler (any `default` code) and any nonempty list of
codes `cs = [c1, …, cN]`, pushing them all from a fresh handler and then
popping `N` times returns, in order, the codes that were current immediately
before each push — `default` before the first push, then `c1, …, c(N-1)` —
in exact reverse order, the final pop yielding `default`. -/
theorem push_pop_lifo_restoration (d : String) (cs : List String) (h : cs ≠ []) :
    (runPops d (runPushes d ElemState.init cs) cs.length).1 =
      (d :: cs.dropLast).reverse := by
  rcases cs with _ | ⟨c, cs'⟩
  · exact absurd rfl h
  · have h1 : runPushes d ElemState.init (c :: cs') =
        ⟨(framesBefore c cs').reverse ++ [d], some (cs'.getLastD c)⟩ := by
      simp only [runPushes, ElemState.init, pushState]
      exact runPushes_some d cs' [d] c
    rw [h1]
    have hlen : (c :: cs').length = ((framesBefore c cs').reverse ++ [d]).length := by
      simp [framesBefore_length]
    rw [hlen, runPops_all_fst]
    rw [framesBefore_eq_dropLast]
    simp

/-- Witness for C1 at concrete codes `["a", "b", "c"]`. -/
theorem push_pop_lifo_restoration_witness :
    (runPops "D" (runPushes "D" ElemState.init ["a", "b", "c"]) (["a", "b", "c"] : List String).length).1 =
      ("D" :: (["a", "b", "c"] : List String).dropLast).reverse :=
  push_pop_lifo_restoration "D" ["a", "b", "c"] (by decide)

/-- **C2.** Popping more often than was pushed never fails: a pop on an empty
stack returns the handler's `default` and sets the current state to `default`,
and after pushing any `cs` from a fresh handler, every pop beyond the first
`cs.length` ones returns `default`. -/
theorem pop_empty_stack_defaults (d : String) :
    (∀ σ, popState d ⟨[], σ⟩ = (d, ⟨[], some d⟩)) ∧
    (∀ (cs : List String) (k : Nat),
      ((runPops d (runPushes d ElemState.init cs) (cs.length + k)).1).drop cs.length =
        List.replicate k d) := by
  refine ⟨fun σ => rfl, fun cs k => ?_⟩
  have hstack : ∃ st : List String, ∃ σ : Option String,
      runPushes d ElemState.init cs = ⟨st, σ⟩ ∧ st.length = cs.length := by
    rcases cs with _ | ⟨c, cs'⟩
    · exact ⟨[], none, rfl, rfl⟩
    · refine ⟨(framesBefore c cs').reverse ++ [d], some (cs'.getLastD c), ?_, ?_⟩
      · simp only [runPushes, ElemState.init, pushState]
        exact runPushes_some d cs' [d] c
      · simp [framesBefore_length]
  rcases hstack with ⟨st, σ, hrun, hlen⟩
  rw [hrun, ← hlen, runPops_add]
  have h2 : (runPops d ⟨st, σ⟩ st.length).2.stack = [] := runPops_all_stack d st σ
  have h1 : (runPops d ⟨st, σ⟩ st.length).1 = st := runPops_all_fst d st σ
  rcases hs2 : (runPops d ⟨st, σ⟩ st.length).2 with ⟨st2, σ2⟩
  have hst2 : st2 = [] := by simpa [hs2] using h2
  subst hst2
  simp [h1, hs2, runPops_empty_fst, List.drop_left]

lemma stackInv_push (d : String) (r : ElemState) (os : List String) (c : String)
    (h : StackInv d r os) : StackInv d (pushState d r c).2 (c :: os) := by
  rcases os with _ | ⟨c0, rest⟩
  · rcases h with ⟨hstack, h0 | h0⟩ <;> simp [pushState, h0, StackInv, hstack]
  · rcases h with ⟨hstate, hstack⟩
    simp [pushState, hstate, StackInv, hstack]

lemma stackInv_pop (d : String) (r : ElemState) (os : List String)
    (h : StackInv d r os) : StackInv d (popState d r).2 os.tail := by
  rcases os with _ | ⟨c0, rest⟩
  · rcases h with ⟨hstack, _⟩
    simp [popState, hstack, StackInv]
  · rcases h with ⟨hstate, hstack⟩
    rcases rest with _ | ⟨c1, rest'⟩
    · simp only [List.nil_append] at hstack
      simp [popState, hstack, StackInv]
    · simp only [List.cons_append] at hstack
      simp [popState, hstack, StackInv]

lemma pushPopRun_inv (d : String) (evs : List (Option String)) :
    ∀ (r : ElemState) (os : List String), StackInv d r os →
      StackInv d (pushPopRun d r evs) (openCodesAux os evs) := by
  induction evs with
  | nil => intro r os h; exact h
  | cons e evs ih =>
    intro r os h
    cases e with
    | some c => exact ih _ _ (stackInv_push d r os c h)
    | none => exact ih _ _ (stackInv_pop d r os h)

lemma stackInv_length (d : String) (r : ElemState) (os : List String)
    (h : StackInv d r os) : r.stack.length = os.length := by
  rcases os with _ | ⟨c0, rest⟩
  · rcases h with ⟨hstack, _⟩; simp [hstack]
  · rcases h with ⟨_, hstack⟩; simp [hstack]

lemma openCodesAux_length (evs : List (Option String)) :
    ∀ (os : List String) (n : Nat), os.length = n →
      (openCodesAux os evs).length = nestingDepthAux n evs := by
  induction evs with
  | nil => intro os n h; simpa [openCodesAux, nestingDepthAux]
  | cons e evs ih =>
    intro os n h
    cases e with
    | some c => exact ih (c :: os) (n + 1) (by simp [h])
    | none => exact ih os.tail (n - 1) (by simp [h, List.length_tail])

/-- **C5, amended.** For every *stack-using* element handler — one whose
`start` calls `push_state` with the attribute-determined code and whose `end`
calls `pop_state` (all handlers except `ANTEML` and `BR`, which never touch
the stack) — after any dispatched start/end sequence the stack depth equals
the nesting depth of the tag type seen so far (unmatched closes not going
below zero), and `state` carries the code of the top-most open instance. -/
theorem stack_depth_tracks_nesting (d : String) (evs : List (Option String)) :
    (pushPopRun d ElemState.init evs).stack.length = nestingDepth evs ∧
    (∀ c rest, openCodes evs = c :: rest →
      (pushPopRun d ElemState.init evs).state = some c) := by
  have hinv := pushPopRun_inv d evs ElemState.init [] ⟨rfl, Or.inl rfl⟩
  constructor
  · rw [stackInv_length d _ _ hinv]
    exact openCodesAux_length evs [] 0 rfl
  · intro c rest hoc
    rw [show openCodes evs = openCodesAux [] evs from rfl] at hoc
    rw [hoc] at hinv
    exact hinv.1

/-- Witness for C5 (amended) at the concrete run open `A`, open `B`, close. -/
theorem stack_depth_tracks_nesting_witness :
    (pushPopRun "Z" ElemState.init [some "A", some "B", none]).state = some "A" :=
  (stack_depth_tracks_nesting "Z" [some "A", some "B", none]).2 "A" [] rfl

lemma stepEv_congr {e1 e2 : Ev} (h : EvEquiv e1 e2) :
    ∀ (su : Bool) (ps : ParserState), stepEv su ps e1 = stepEv su ps e2 := by
  induction h with
  | refl e => intro su ps; rfl
  | symm _ ih => intro su ps; exact (ih su ps).symm
  | bOpen o1 o2 => intro su ps; rfl
  | lOpen o1 o2 => intro su ps; rfl
  | bClose => intro su ps; rfl
  | lClose => intro su ps; rfl

lemma runEvents_congr (su : Bool) {evs1 evs2 : List Ev}
    (h : List.Forall₂ EvEquiv evs1 evs2) :
    ∀ ps, runEvents su ps evs1 = runEvents su ps evs2 := by
  induction h with
  | nil => intro ps; rfl
  | cons h1 _ ih =>
    intro ps
    simp only [runEvents]
    rw [stepEv_congr h1 su ps]
    rcases stepEv su ps _ with err | ⟨out, ps2⟩
    · rfl
    · simp only []
      rw [ih ps2]

/-- **C4.** Alias and canonical tag events are interchangeable: for any two
event sequences that agree up to replacing `<B>`/`<L>` opens by
`<FW BOLD>`/`<FW LIGHT>` opens and `</B>`/`</L>` closes by `</FW>` (in either
direction), dispatch produces identical output fragments and identical
handler states — all state lives in the one canonical `fw` handler; the
aliases resolve on open to the canonical tag with the synthesized attribute
(`b` → `fw bold`, `l` → `fw light`) and on close to the canonical tag name. -/
theorem alias_open_close_interchangeable :
    (∀ (su : Bool) (ps : ParserState) (evs1 evs2 : List Ev),
        List.Forall₂ EvEquiv evs1 evs2 →
          runEvents su ps evs1 = runEvents su ps evs2) ∧
    resolveStarttagAlias "b" [] = .ok ("fw", [("bold", none)]) ∧
    resolveStarttagAlias "l" [] = .ok ("fw", [("light", none)]) ∧
    resolveEndtagAlias "b" = "fw" ∧
    resolveEndtagAlias "l" = "fw" :=
  ⟨fun su ps _ _ h => runEvents_congr su h ps, rfl, rfl, rfl, rfl⟩

/-- Witness for C4: opening with the alias and closing with the canonical tag
produces the same run as opening canonically and closing with the alias. -/
theorem alias_open_close_interchangeable_witness :
    runEvents false ParserState.init [.startTag "b" [] "<B>", .endTag "fw"] =
      runEvents false ParserState.init
        [.startTag "fw" [("bold", none)] "<FW BOLD>", .endTag "b"] :=
  alias_open_close_interchangeable.1 false ParserState.init _ _
    (List.Forall₂.cons (EvEquiv.bOpen "<B>" "<FW BOLD>")
      (List.Forall₂.cons (EvEquiv.symm EvEquiv.bClose) List.Forall₂.nil))

lemma noAttrStart_error_state (t c d : String) (attrs : Attrs) (s : ElemState)
    (e : AntemlAttributeError) (h : (noAttrStart t c d attrs s).1 = .error e) :
    (noAttrStart t c d attrs s).2 = s := by
  by_cases hl : attrs.length > 0
  · simp [noAttrStart, hl]
  · simp [noAttrStart, hl] at h

/-- **C10.** A failing `start` leaves the handler exactly as it was: every
raise site of every concrete element is reached before its `push_state`
call, so on error the returned handler state is the entry state (and
`AntemlElement.start` never changes state at all). -/
theorem failed_start_preserves_state :
    (∀ attrs s, (AntemlElement.start attrs s).2 = s) ∧
    (∀ attrs s e, (BrElement.start attrs s).1 = .error e → (BrElement.start attrs s).2 = s) ∧
    (∀ attrs s e, (FwElement.start attrs s).1 = .error e → (FwElement.start attrs s).2 = s) ∧
    (∀ attrs s e, (BgElement.start attrs s).1 = .error e → (BgElement.start attrs s).2 = s) ∧
    (∀ attrs s e, (FgElement.start attrs s).1 = .error e → (FgElement.start attrs s).2 = s) ∧
    (∀ attrs s e, (IElement.start attrs s).1 = .error e → (IElement.start attrs s).2 = s) ∧
    (∀ attrs s e, (UElement.start attrs s).1 = .error e → (UElement.start attrs s).2 = s) ∧
    (∀ attrs s e, (SElement.start attrs s).1 = .error e → (SElement.start attrs s).2 = s) ∧
    (∀ attrs s e, (BlinkElement.start attrs s).1 = .error e → (BlinkElement.start attrs s).2 = s) ∧
    (∀ attrs s e, (InvertElement.start attrs s).1 = .error e → (InvertElement.start attrs s).2 = s) ∧
    (∀ attrs s e, (HideElement.start attrs s).1 = .error e → (HideElement.start attrs s).2 = s) ∧
    (∀ attrs s e, (ScreenElement.start attrs s).1 = .error e → (ScreenElement.start attrs s).2 = s) := by
  refine ⟨fun attrs s => rfl, ?_, ?_, ?_, ?_,
    fun attrs s e h => noAttrStart_error_state _ _ _ attrs s e h,
    fun attrs s e h => noAttrStart_error_state _ _ _ attrs s e h,
    fun attrs s e h => noAttrStart_error_state _ _ _ attrs s e h,
    fun attrs s e h => noAttrStart_error_state _ _ _ attrs s e h,
    fun attrs s e h => noAttrStart_error_state _ _ _ attrs s e h,
    fun attrs s e h => noAttrStart_error_state _ _ _ attrs s e h, ?_⟩
  · intro attrs s e h
    unfold BrElement.start at *
    split <;> rfl
  · intro attrs s e h
    rcases attrs with _ | ⟨⟨n, v⟩, _ | ⟨a2, rest⟩⟩
    · rfl
    · cases hp : FontWeight.parse n with
      | none => simp [FwElement.start, hp]
      | some fw => simp [FwElement.start, hp] at h
    · rfl
  · intro attrs s e h
    rcases attrs with _ | ⟨⟨n, v⟩, _ | ⟨a2, rest⟩⟩
    · rfl
    · cases hp : Color.parse n with
      | none => simp [BgElement.start, hp]
      | some r => simp [BgElement.start, hp] at h
    · rfl
  · intro attrs s e h
    rcases attrs with _ | ⟨⟨n, v⟩, _ | ⟨a2, rest⟩⟩
    · rfl
    · cases hp : Color.parse n with
      | none => simp [FgElement.start, hp]
      | some r => simp [FgElement.start, hp] at h
    · rfl
  · intro attrs s e h
    unfold ScreenElement.start at *
    by_cases hl : attrs.length > 2
    · simp [hl]
    · simp only [hl, if_false] at h ⊢
      cases hscan : ScreenElement.screenScan attrs none none with
      | error e2 => simp [hscan]
      | ok mw => simp [hscan] at h

/-- Witness for C10: a failing `<FW>` open (no attributes) leaves the fresh
handler untouched. -/
theorem failed_start_preserves_state_witness :
    (FwElement.start [] ElemState.init).2 = ElemState.init :=
  failed_start_preserves_state.2.2.1 [] ElemState.init
    ⟨"<FW> tag has the incorrect number of attributes (exactly 1 expected, 0 given)"⟩ rfl

lemma lookup_none_of_ne {α : Type} (k : String) (l : List (String × α))
    (h : ∀ p ∈ l, p.1 ≠ k) : l.lookup k = none := by
  induction l with
  | nil => rfl
  | cons p rest ih =>
    rcases p with ⟨pk, pv⟩
    have hbeq : (k == pk) = false :=
      beq_eq_false_iff_ne.mpr (Ne.symm (h (pk, pv) (List.mem_cons_self _ _)))
    simp only [List.lookup, hbeq]
    exact ih (fun q hq => h q (List.mem_cons_of_mem _ hq))

lemma pyDictLookup_none {α : Type} (l : List (String × α)) (k : String)
    (h : ∀ p ∈ l, p.1 ≠ k) : pyDictLookup l k = none :=
  lookup_none_of_ne k l.reverse (fun p hp => h p (List.mem_reverse.mp hp))

/-- No color name starts with `x`. -/
lemma names_lookup_none_x (w : String) (hhead : w.data.head? = some 'x') :
    pyDictLookup Color.names w = none := by
  apply pyDictLookup_none
  intro p hp he
  rw [← he] at hhead
  fin_cases hp <;> exact absurd hhead (by decide)

/-- No color name is `d` followed by digits only. -/
lemma names_lookup_none_d (w : String) (h1 : w.data.head? = some 'd')
    (h2 : w.data.tail.all Color.isDigitChar = true) :
    pyDictLookup Color.names w = none := by
  apply pyDictLookup_none
  intro p hp he
  rw [← he] at h1 h2
  fin_cases hp <;> exact absurd (And.intro h1 h2) (by decide)

lemma digit_val_le (a : Char) (h : Color.isDigitChar a = true) :
    48 ≤ a.toNat ∧ a.toNat ≤ 57 := by
  simpa only [Color.isDigitChar, Bool.and_eq_true, decide_eq_true_eq] using h

lemma digit_val_iff (a : Char) :
    Color.isDigitChar a = true ↔ (48 ≤ a.toNat ∧ a.toNat ≤ 57) := by
  simp [Color.isDigitChar]

lemma decimalBody_iff (ds : List Char) :
    Color.decimalBody ds = true ↔
      (ds ≠ [] ∧ ds.length ≤ 3 ∧ (∀ c ∈ ds, Color.isDigitChar c = true) ∧
        digitsToNat ds ≤ 255) := by
  rcases ds with _ | ⟨a, _ | ⟨b, _ | ⟨c, _ | ⟨e, tl⟩⟩⟩⟩
  · simp [Color.decimalBody]
  · simp [Color.decimalBody, digitsToNat, digit_val_iff]
    omega
  · simp [Color.decimalBody, digitsToNat, digit_val_iff]
    omega
  · simp [Color.decimalBody, digitsToNat, digit_val_iff]
    omega
  · simp [Color.decimalBody, digitsToNat, digit_val_iff]

lemma hexBody_iff (hs : List Char) :
    Color.hexBody hs = true ↔
      ((hs.length = 3 ∨ hs.length = 6) ∧ ∀ c ∈ hs, Color.isHexLowerChar c = true) := by
  simp [Color.hexBody, List.all_eq_true, Nat.beq_eq_true_eq]

lemma decMatch_iff (l : List Char) :
    Color.decMatch l = true ↔ ∃ ds, l = 'd' :: ds ∧ Color.decimalBody ds = true := by
  cases l with
  | nil => simp [Color.decMatch]
  | cons c ds =>
    simp only [Color.decMatch, Bool.and_eq_true, beq_iff_eq]
    constructor
    · rintro ⟨hc, hb⟩; subst hc; exact ⟨ds, rfl, hb⟩
    · rintro ⟨ds', heq, hb⟩
      injection heq with hh ht
      subst hh; subst ht
      exact ⟨rfl, hb⟩

lemma hexMatch_iff (l : List Char) :
    Color.hexMatch l = true ↔ ∃ hs, l = 'x' :: hs ∧ Color.hexBody hs = true := by
  cases l with
  | nil => simp [Color.hexMatch]
  | cons c hs =>
    simp only [Color.hexMatch, Bool.and_eq_true, beq_iff_eq]
    constructor
    · rintro ⟨hc, hb⟩; subst hc; exact ⟨hs, rfl, hb⟩
    · rintro ⟨hs', heq, hb⟩
      injection heq with hh ht
      subst hh; subst ht
      exact ⟨rfl, hb⟩

lemma decMatch_iff_form (v : String) :
    Color.decMatch (pyLower v).data = true ↔ isDecimalForm v := by
  rw [decMatch_iff]
  unfold isDecimalForm
  constructor
  · rintro ⟨ds, hds, hb⟩
    rw [decimalBody_iff] at hb
    exact ⟨ds, hds, hb.1, hb.2.1, hb.2.2.1, hb.2.2.2⟩
  · rintro ⟨ds, hds, h1, h2, h3, h4⟩
    exact ⟨ds, hds, (decimalBody_iff ds).mpr ⟨h1, h2, h3, h4⟩⟩

lemma hexMatch_iff_form (v : String) :
    Color.hexMatch (pyLower v).data = true ↔ isHexForm v := by
  rw [hexMatch_iff]
  unfold isHexForm
  constructor
  · rintro ⟨hs, hds, hb⟩
    rw [hexBody_iff] at hb
    exact ⟨hs, hds, hb.1, hb.2⟩
  · rintro ⟨hs, hds, h1, h2⟩
    exact ⟨hs, hds, (hexBody_iff hs).mpr ⟨h1, h2⟩⟩

lemma isDecimalForm_lookup_none (v : String) (h : isDecimalForm v) :
    pyDictLookup Color.names (pyLower v) = none := by
  obtain ⟨ds, hds, _, _, hdig, _⟩ := h
  apply names_lookup_none_d
  · rw [hds]; rfl
  · rw [hds]
    simpa only [List.tail_cons, List.all_eq_true] using hdig

lemma isHexForm_lookup_none (v : String) (h : isHexForm v) :
    pyDictLookup Color.names (pyLower v) = none := by
  obtain ⟨hs, hds, _, _⟩ := h
  apply names_lookup_none_x
  rw [hds]; rfl

lemma parse_of_decimalForm (v : String) (h : isDecimalForm v) :
    Color.parse v =
      some ("decimal", ⟨Color.stripZeros ((pyLower v).data.drop 1)⟩,
        ⟨Color.stripZeros ((pyLower v).data.drop 1)⟩) := by
  simp only [Color.parse]
  rw [isDecimalForm_lookup_none v h]
  simp [(decMatch_iff_form v).mpr h]

lemma parse_of_hexForm (v : String) (h : isHexForm v) :
    ∃ p, Color.parse v = some ("hex", p, p) := by
  have hdm : Color.decMatch (pyLower v).data = false := by
    obtain ⟨hs, hds, _, _⟩ := h
    rw [hds]
    simp [Color.decMatch]
  simp only [Color.parse]
  rw [isHexForm_lookup_none v h, hdm]
  simp [(hexMatch_iff_form v).mpr h]

lemma pyLower_idem_data (v : String) : pyLower v = ⟨(pyLower v).data⟩ := rfl

/-- **C8.** The color grammar, characterized: `parse` recognises exactly the
three surface forms (a table name, `D` + 1–3 digits valued 0–255, `X` + 3 or
6 hex digits), case-insensitively; named colors map to their fixed pairwise
distinct (fg, bg) code pairs; decimal and hex results carry the same payload
for foreground and background; a 3-hex-digit form parses identically to its
nibble-doubled 6-digit form; and `D256`, `XGGG` are invalid. -/
theorem color_grammar_three_forms :
    (∀ v, Color.parse v = none ↔ ¬ (isNamedForm v ∨ isDecimalForm v ∨ isHexForm v)) ∧
    (∀ v k f b, Color.parse v = some (k, f, b) →
        k = "name" ∨ k = "decimal" ∨ k = "hex") ∧
    (∀ v w, pyLower v = pyLower w → Color.parse v = Color.parse w) ∧
    (∀ p ∈ Color.names, ∀ w, pyLower w = p.1 →
        Color.parse w = some ("name", p.2.1, p.2.2)) ∧
    List.Pairwise (fun x y => x.2 ≠ y.2) Color.names ∧
    (∀ v, isDecimalForm v → ∃ p, Color.parse v = some ("decimal", p, p)) ∧
    (∀ v, isHexForm v → ∃ p, Color.parse v = some ("hex", p, p)) ∧
    (∀ a b c : Char,
        Color.parse ⟨['x', a, b, c]⟩ = Color.parse ⟨['x', a, a, b, b, c, c]⟩) ∧
    Color.parse "Xabc" = Color.parse "Xaabbcc" ∧
    Color.parse "D256" = none ∧ Color.parse "XGGG" = none := by
  refine ⟨?_, ?_, ?_, ?_, by decide, ?_, ?_, ?_, rfl, rfl, rfl⟩
  · intro v
    simp only [Color.parse]
    cases hl : pyDictLookup Color.names (pyLower v) with
    | some p =>
      rcases p with ⟨fg, bg⟩
      simp [isNamedForm, hl]
    | none =>
      cases hd : Color.decMatch (pyLower v).data with
      | true => simp [hd, (decMatch_iff_form v).mp hd]
      | false =>
        have hnd : ¬ isDecimalForm v := fun hf =>
          absurd ((decMatch_iff_form v).mpr hf) (by simp [hd])
        cases hx : Color.hexMatch (pyLower v).data with
        | true => simp [hd, hx, (hexMatch_iff_form v).mp hx]
        | false =>
          have hnx : ¬ isHexForm v := fun hf =>
            absurd ((hexMatch_iff_form v).mpr hf) (by simp [hx])
          simp [hd, hx, isNamedForm, hl, hnd, hnx]
  · intro v k f b h
    simp only [Color.parse] at h
    cases hl : pyDictLookup Color.names (pyLower v) with
    | some p =>
      rcases p with ⟨fg, bg⟩
      rw [hl] at h
      simp only [Option.some.injEq, Prod.mk.injEq] at h
      exact Or.inl h.1.symm
    | none =>
      rw [hl] at h
      split_ifs at h with h1 h2 h3 <;>
        simp only [Option.some.injEq, Prod.mk.injEq] at h
      · exact Or.inr (Or.inl h.1.symm)
      · exact Or.inr (Or.inr h.1.symm)
      · exact Or.inr (Or.inr h.1.symm)
  · intro v w h
    simp only [Color.parse]
    rw [h]
  · intro p hp w hw
    simp only [Color.parse]
    rw [hw]
    fin_cases hp <;> rfl
  · intro v h
    exact ⟨_, parse_of_decimalForm v h⟩
  · exact parse_of_hexForm
  · intro a b c
    have hxl : pyLowerChar 'x' = 'x' := by decide
    have hlow1 : pyLower ⟨['x', a, b, c]⟩ =
        ⟨['x', pyLowerChar a, pyLowerChar b, pyLowerChar c]⟩ := by
      simp [pyLower, hxl]
    have hlow2 : pyLower ⟨['x', a, a, b, b, c, c]⟩ =
        ⟨['x', pyLowerChar a, pyLowerChar a, pyLowerChar b, pyLowerChar b,
          pyLowerChar c, pyLowerChar c]⟩ := by
      simp [pyLower, hxl]
    simp only [Color.parse]
    rw [hlow1, hlow2]
    rw [names_lookup_none_x ⟨['x', pyLowerChar a, pyLowerChar b, pyLowerChar c]⟩ rfl,
      names_lookup_none_x ⟨['x', pyLowerChar a, pyLowerChar a, pyLowerChar b,
        pyLowerChar b, pyLowerChar c, pyLowerChar c]⟩ rfl]
    cases ha : Color.isHexLowerChar (pyLowerChar a) <;>
      cases hb : Color.isHexLowerChar (pyLowerChar b) <;>
      cases hc : Color.isHexLowerChar (pyLowerChar c) <;>
      simp [Color.decMatch, Color.hexMatch, Color.hexBody, Color.doubleChars,
        ha, hb, hc]

/-- Witness for C8: case-insensitivity at `"RED"` vs `"red"`. -/
theorem color_grammar_three_forms_witness :
    Color.parse "RED" = Color.parse "red" :=
  color_grammar_three_forms.2.2.1 "RED" "red" rfl

lemma noAttrStart_raised (t c d : String) (attrs : Attrs) (s : ElemState) :
    raised (noAttrStart t c d attrs s).1 = zeroAttrSpecErr attrs := by
  rw [Bool.eq_iff_iff]
  by_cases hl : attrs.length > 0
  · simp only [noAttrStart, if_pos hl, raised, zeroAttrSpecErr,
      decide_eq_true_eq, true_iff]
    omega
  · simp only [noAttrStart, if_neg hl, raised, zeroAttrSpecErr,
      decide_eq_true_eq, Bool.false_eq_true, false_iff]
    omega

lemma brStart_raised (attrs : Attrs) (s : ElemState) :
    raised (BrElement.start attrs s).1 = zeroAttrSpecErr attrs := by
  rw [Bool.eq_iff_iff]
  by_cases hl : attrs.length > 0
  · simp only [BrElement.start, if_pos hl, raised, zeroAttrSpecErr,
      decide_eq_true_eq, true_iff]
    omega
  · simp only [BrElement.start, if_neg hl, raised, zeroAttrSpecErr,
      decide_eq_true_eq, Bool.false_eq_true, false_iff]
    omega

lemma fwStart_raised (attrs : Attrs) (s : ElemState) :
    raised (FwElement.start attrs s).1 = fwSpecErr attrs := by
  rw [Bool.eq_iff_iff]
  rcases attrs with _ | ⟨⟨n, v⟩, _ | ⟨a2, rest⟩⟩
  · simp [FwElement.start, fwSpecErr, raised]
  · cases hp : FontWeight.parse n with
    | none => simp [FwElement.start, fwSpecErr, raised, hp]
    | some fw => simp [FwElement.start, fwSpecErr, raised, hp]
  · simp [FwElement.start, fwSpecErr, raised]

lemma fgStart_raised (attrs : Attrs) (s : ElemState) :
    raised (FgElement.start attrs s).1 = colorSpecErr attrs := by
  rw [Bool.eq_iff_iff]
  rcases attrs with _ | ⟨⟨n, v⟩, _ | ⟨a2, rest⟩⟩
  · simp [FgElement.start, colorSpecErr, raised]
  · cases hp : Color.parse n with
    | none => simp [FgElement.start, colorSpecErr, raised, hp]
    | some r =>
      rcases r with ⟨ct, cf, cb⟩
      simp [FgElement.start, colorSpecErr, raised, hp]
  · simp [FgElement.start, colorSpecErr, raised]

lemma bgStart_raised (attrs : Attrs) (s : ElemState) :
    raised (BgElement.start attrs s).1 = colorSpecErr attrs := by
  rw [Bool.eq_iff_iff]
  rcases attrs with _ | ⟨⟨n, v⟩, _ | ⟨a2, rest⟩⟩
  · simp [BgElement.start, colorSpecErr, raised]
  · cases hp : Color.parse n with
    | none => simp [BgElement.start, colorSpecErr, raised, hp]
    | some r =>
      rcases r with ⟨ct, cf, cb⟩
      simp [BgElement.start, colorSpecErr, raised, hp]
  · simp [BgElement.start, colorSpecErr, raised]

lemma determineScreenMode_raised (an : String) (av : Option String) :
    raised (ScreenElement.determineScreenMode av) = badModeVal (an, av) := by
  cases av with
  | none => rfl
  | some v =>
    cases hp : ScreenMode.parse v with
    | none => simp [ScreenElement.determineScreenMode, hp, badModeVal, raised]
    | some sm => simp [ScreenElement.determineScreenMode, hp, badModeVal, raised]

lemma determineLineWrap_raised (an : String) (av : Option String) :
    raised (ScreenElement.determineLineWrap av) = badWrapVal (an, av) := by
  cases av with
  | none => rfl
  | some v =>
    cases hp : Boolean.parse v with
    | none => simp [ScreenElement.determineLineWrap, hp, badWrapVal, raised]
    | some b => simp [ScreenElement.determineLineWrap, hp, badWrapVal, raised]

lemma scan_mode_dup {an : String} (av : Option String) (rest : Attrs) (m0 : String)
    (w : Option Bool) (hm : pyLower an = "mode") :
    ScreenElement.screenScan ((an, av) :: rest) (some m0) w =
      .error ⟨"Attribute 'MODE' specified more than once on <SCREEN> tag"⟩ := by
  simp [ScreenElement.screenScan, hm]

lemma scan_mode_err {an : String} {av : Option String} (rest : Attrs) (w : Option Bool)
    {e : AntemlAttributeError} (hm : pyLower an = "mode")
    (hdet : ScreenElement.determineScreenMode av = .error e) :
    ScreenElement.screenScan ((an, av) :: rest) none w = .error e := by
  simp [ScreenElement.screenScan, hm, hdet]

lemma scan_mode_ok {an : String} {av : Option String} (rest : Attrs) (w : Option Bool)
    {sm : String} (hm : pyLower an = "mode")
    (hdet : ScreenElement.determineScreenMode av = .ok sm) :
    ScreenElement.screenScan ((an, av) :: rest) none w =
      ScreenElement.screenScan rest (some sm) w := by
  simp [ScreenElement.screenScan, hm, hdet]

lemma scan_wrap_dup {an : String} (av : Option String) (rest : Attrs)
    (m : Option String) (w0 : Bool) (hw : pyLower an = "wrap") :
    ScreenElement.screenScan ((an, av) :: rest) m (some w0) =
      .error ⟨"Attribute 'WRAP' specified more than once on <SCREEN> tag"⟩ := by
  have hm : ¬ pyLower an = "mode" := by rw [hw]; decide
  simp [ScreenElement.screenScan, hw, hm]

lemma scan_wrap_err {an : String} {av : Option String} (rest : Attrs)
    (m : Option String) {e : AntemlAttributeError} (hw : pyLower an = "wrap")
    (hdet : ScreenElement.determineLineWrap av = .error e) :
    ScreenElement.screenScan ((an, av) :: rest) m none = .error e := by
  have hm : ¬ pyLower an = "mode" := by rw [hw]; decide
  simp [ScreenElement.screenScan, hw, hm, hdet]

lemma scan_wrap_ok {an : String} {av : Option String} (rest : Attrs)
    (m : Option String) {b : Bool} (hw : pyLower an = "wrap")
    (hdet : ScreenElement.determineLineWrap av = .ok b) :
    ScreenElement.screenScan ((an, av) :: rest) m none =
      ScreenElement.screenScan rest m (some b) := by
  have hm : ¬ pyLower an = "mode" := by rw [hw]; decide
  simp [ScreenElement.screenScan, hw, hm, hdet]

lemma scan_other {an : String} (av : Option String) (rest : Attrs)
    (m : Option String) (w : Option Bool) (hm : ¬ pyLower an = "mode")
    (hw : ¬ pyLower an = "wrap") :
    ScreenElement.screenScan ((an, av) :: rest) m w =
      ScreenElement.screenScan rest m w := by
  simp [ScreenElement.screenScan, hm, hw]

lemma screenScan_raised_iff (attrs : Attrs) :
    ∀ (m : Option String) (w : Option Bool),
      raised (ScreenElement.screenScan attrs m w) = true ↔
        ((m.isSome = true ∧ ∃ x ∈ attrs, isModeAttr x = true)
          ∨ 2 ≤ attrs.countP isModeAttr
          ∨ (∃ x ∈ attrs, isModeAttr x = true ∧ badModeVal x = true)
          ∨ (w.isSome = true ∧ ∃ x ∈ attrs, isWrapAttr x = true)
          ∨ 2 ≤ attrs.countP isWrapAttr
          ∨ (∃ x ∈ attrs, isWrapAttr x = true ∧ badWrapVal x = true)) := by
  induction attrs with
  | nil => intro m w; simp [ScreenElement.screenScan, raised]
  | cons a rest ih =>
    intro m w
    rcases a with ⟨an, av⟩
    by_cases hm : pyLower an = "mode"
    · have hmode : isModeAttr (an, av) = true := by simp [isModeAttr, hm]
      have hwrap : isWrapAttr (an, av) = false := by simp [isWrapAttr, hm]
      have hcm : List.countP isModeAttr ((an, av) :: rest) =
          List.countP isModeAttr rest + 1 := by
        simp [List.countP_cons, hmode]
      have hcw : List.countP isWrapAttr ((an, av) :: rest) =
          List.countP isWrapAttr rest := by
        simp [List.countP_cons, hwrap]
      cases m with
      | some m0 =>
        rw [scan_mode_dup av rest m0 w hm]
        simp only [raised, true_iff]
        exact Or.inl ⟨rfl, (an, av), List.mem_cons_self _ _, hmode⟩
      | none =>
        cases hdet : ScreenElement.determineScreenMode av with
        | error e2 =>
          rw [scan_mode_err rest w hm hdet]
          have hbad : badModeVal (an, av) = true := by
            rw [← determineScreenMode_raised an av, hdet]; rfl
          simp only [raised, true_iff]
          exact Or.inr (Or.inr (Or.inl ⟨(an, av), List.mem_cons_self _ _, hmode, hbad⟩))
        | ok sm =>
          rw [scan_mode_ok rest w hm hdet, ih (some sm) w]
          have hgood : badModeVal (an, av) = false := by
            rw [← determineScreenMode_raised an av, hdet]; rfl
          rw [hcm, hcw]
          simp only [Option.isSome_some, Option.isSome_none, Bool.false_eq_true,
            false_and, false_or, true_and, List.mem_cons]
          constructor
          · rintro (h | h | h | h | h | h)
            · refine Or.inl ?_
              obtain ⟨x, hx, hpx⟩ := h
              have := List.countP_pos_iff.mpr ⟨x, hx, hpx⟩
              omega
            · exact Or.inl (by omega)
            · obtain ⟨x, hx, hpx, hbx⟩ := h
              exact Or.inr (Or.inl ⟨x, Or.inr hx, hpx, hbx⟩)
            · obtain ⟨hws, x, hx, hpx⟩ := h
              exact Or.inr (Or.inr (Or.inl ⟨hws, x, Or.inr hx, hpx⟩))
            · exact Or.inr (Or.inr (Or.inr (Or.inl h)))
            · obtain ⟨x, hx, hpx, hbx⟩ := h
              exact Or.inr (Or.inr (Or.inr (Or.inr ⟨x, Or.inr hx, hpx, hbx⟩)))
          · rintro (h | h | h | h | h)
            · have hpos : 0 < List.countP isModeAttr rest := by omega
              obtain ⟨x, hx, hpx⟩ := List.countP_pos_iff.mp hpos
              exact Or.inl ⟨x, hx, hpx⟩
            · obtain ⟨x, hx, hpx, hbx⟩ := h
              rcases hx with hx | hx
              · subst hx; rw [hgood] at hbx; cases hbx
              · exact Or.inr (Or.inr (Or.inl ⟨x, hx, hpx, hbx⟩))
            · obtain ⟨hws, x, hx, hpx⟩ := h
              rcases hx with hx | hx
              · subst hx; rw [hwrap] at hpx; cases hpx
              · exact Or.inr (Or.inr (Or.inr (Or.inl ⟨hws, x, hx, hpx⟩)))
            · exact Or.inr (Or.inr (Or.inr (Or.inr (Or.inl h))))
            · obtain ⟨x, hx, hpx, hbx⟩ := h
              rcases hx with hx | hx
              · subst hx; rw [hwrap] at hpx; cases hpx
              · exact Or.inr (Or.inr (Or.inr (Or.inr (Or.inr ⟨x, hx, hpx, hbx⟩))))
    · by_cases hw : pyLower an = "wrap"
      · have hmode : isModeAttr (an, av) = false := by simp [isModeAttr, hm]
        have hwrap : isWrapAttr (an, av) = true := by simp [isWrapAttr, hw]
        have hcm : List.countP isModeAttr ((an, av) :: rest) =
            List.countP isModeAttr rest := by
          simp [List.countP_cons, hmode]
        have hcw : List.countP isWrapAttr ((an, av) :: rest) =
            List.countP isWrapAttr rest + 1 := by
          simp [List.countP_cons, hwrap]
        cases w with
        | some w0 =>
          rw [scan_wrap_dup av rest m w0 hw]
          simp only [raised, true_iff]
          exact Or.inr (Or.inr (Or.inr (Or.inl
            ⟨rfl, (an, av), List.mem_cons_self _ _, hwrap⟩)))
        | none =>
          cases hdet : ScreenElement.determineLineWrap av with
          | error e2 =>
            rw [scan_wrap_err rest m hw hdet]
            have hbad : badWrapVal (an, av) = true := by
              rw [← determineLineWrap_raised an av, hdet]; rfl
            simp only [raised, true_iff]
            exact Or.inr (Or.inr (Or.inr (Or.inr (Or.inr
              ⟨(an, av), List.mem_cons_self _ _, hwrap, hbad⟩))))
          | ok b =>
            rw [scan_wrap_ok rest m hw hdet, ih m (some b)]
            have hgood : badWrapVal (an, av) = false := by
              rw [← determineLineWrap_raised an av, hdet]; rfl
            rw [hcm, hcw]
            simp only [Option.isSome_some, Option.isSome_none, Bool.false_eq_true,
              false_and, false_or, true_and, List.mem_cons]
            constructor
            · rintro (h | h | h | h | h | h)
              · obtain ⟨hms, x, hx, hpx⟩ := h
                exact Or.inl ⟨hms, x, Or.inr hx, hpx⟩
              · exact Or.inr (Or.inl h)
              · obtain ⟨x, hx, hpx, hbx⟩ := h
                exact Or.inr (Or.inr (Or.inl ⟨x, Or.inr hx, hpx, hbx⟩))
              · refine Or.inr (Or.inr (Or.inr (Or.inl ?_)))
                obtain ⟨x, hx, hpx⟩ := h
                have := List.countP_pos_iff.mpr ⟨x, hx, hpx⟩
                omega
              · exact Or.inr (Or.inr (Or.inr (Or.inl (by omega))))
              · obtain ⟨x, hx, hpx, hbx⟩ := h
                exact Or.inr (Or.inr (Or.inr (Or.inr ⟨x, Or.inr hx, hpx, hbx⟩)))
            · rintro (h | h | h | h | h)
              · obtain ⟨hms, x, hx, hpx⟩ := h
                rcases hx with hx | hx
                · subst hx; rw [hmode] at hpx; cases hpx
                · exact Or.inl ⟨hms, x, hx, hpx⟩
              · exact Or.inr (Or.inl h)
              · obtain ⟨x, hx, hpx, hbx⟩ := h
                rcases hx with hx | hx
                · subst hx; rw [hmode] at hpx; cases hpx
                · exact Or.inr (Or.inr (Or.inl ⟨x, hx, hpx, hbx⟩))
              · have hpos : 0 < List.countP isWrapAttr rest := by omega
                obtain ⟨x, hx, hpx⟩ := List.countP_pos_iff.mp hpos
                exact Or.inr (Or.inr (Or.inr (Or.inl ⟨x, hx, hpx⟩)))
              · obtain ⟨x, hx, hpx, hbx⟩ := h
                rcases hx with hx | hx
                · subst hx; rw [hgood] at hbx; cases hbx
                · exact Or.inr (Or.inr (Or.inr (Or.inr (Or.inr ⟨x, hx, hpx, hbx⟩))))
      · have hmode : isModeAttr (an, av) = false := by simp [isModeAttr, hm]
        have hwrap : isWrapAttr (an, av) = false := by simp [isWrapAttr, hw]
        have hcm : List.countP isModeAttr ((an, av) :: rest) =
            List.countP isModeAttr rest := by
          simp [List.countP_cons, hmode]
        have hcw : List.countP isWrapAttr ((an, av) :: rest) =
            List.countP isWrapAttr rest := by
          simp [List.countP_cons, hwrap]
        rw [scan_other av rest m w hm hw, ih m w, hcm, hcw]
        simp only [List.mem_cons]
        constructor
        · rintro (h | h | h | h | h | h)
          · obtain ⟨hms, x, hx, hpx⟩ := h
            exact Or.inl ⟨hms, x, Or.inr hx, hpx⟩
          · exact Or.inr (Or.inl h)
          · obtain ⟨x, hx, hpx, hbx⟩ := h
            exact Or.inr (Or.inr (Or.inl ⟨x, Or.inr hx, hpx, hbx⟩))
          · obtain ⟨hws, x, hx, hpx⟩ := h
            exact Or.inr (Or.inr (Or.inr (Or.inl ⟨hws, x, Or.inr hx, hpx⟩)))
          · exact Or.inr (Or.inr (Or.inr (Or.inr (Or.inl h))))
          · obtain ⟨x, hx, hpx, hbx⟩ := h
            exact Or.inr (Or.inr (Or.inr (Or.inr (Or.inr ⟨x, Or.inr hx, hpx, hbx⟩))))
        · rintro (h | h | h | h | h | h)
          · obtain ⟨hms, x, hx, hpx⟩ := h
            rcases hx with hx | hx
            · subst hx; rw [hmode] at hpx; cases hpx
            · exact Or.inl ⟨hms, x, hx, hpx⟩
          · exact Or.inr (Or.inl h)
          · obtain ⟨x, hx, hpx, hbx⟩ := h
            rcases hx with hx | hx
            · subst hx; rw [hmode] at hpx; cases hpx
            · exact Or.inr (Or.inr (Or.inl ⟨x, hx, hpx, hbx⟩))
          · obtain ⟨hws, x, hx, hpx⟩ := h
            rcases hx with hx | hx
            · subst hx; rw [hwrap] at hpx; cases hpx
            · exact Or.inr (Or.inr (Or.inr (Or.inl ⟨hws, x, hx, hpx⟩)))
          · exact Or.inr (Or.inr (Or.inr (Or.inr (Or.inl h))))
          · obtain ⟨x, hx, hpx, hbx⟩ := h
            rcases hx with hx | hx
            · subst hx; rw [hwrap] at hpx; cases hpx
            · exact Or.inr (Or.inr (Or.inr (Or.inr (Or.inr ⟨x, hx, hpx, hbx⟩))))

lemma screenStart_raised (attrs : Attrs) (s : ElemState) :
    raised (ScreenElement.start attrs s).1 = screenSpecErr attrs := by
  rw [Bool.eq_iff_iff]
  have hspec : screenSpecErr attrs = true ↔
      (attrs.length > 2 ∨ 2 ≤ attrs.countP isModeAttr ∨ 2 ≤ attrs.countP isWrapAttr
        ∨ (∃ x ∈ attrs, isModeAttr x = true ∧ badModeVal x = true)
        ∨ (∃ x ∈ attrs, isWrapAttr x = true ∧ badWrapVal x = true)) := by
    simp only [screenSpecErr, Bool.or_eq_true, decide_eq_true_eq,
      List.any_eq_true, Bool.and_eq_true, or_assoc]
  rw [hspec]
  by_cases hl : attrs.length > 2
  · simp [ScreenElement.start, raised, hl]
  · have hscan := screenScan_raised_iff attrs none none
    simp only [Option.isSome_none, Bool.false_eq_true, false_and, false_or] at hscan
    cases hs : ScreenElement.screenScan attrs none none with
    | error e =>
      rw [hs] at hscan
      simp only [raised, true_iff] at hscan
      simp only [ScreenElement.start, if_neg hl, hs, raised, true_iff]
      rcases hscan with h | h | h | h
      · exact Or.inr (Or.inl h)
      · exact Or.inr (Or.inr (Or.inr (Or.inl h)))
      · exact Or.inr (Or.inr (Or.inl h))
      · exact Or.inr (Or.inr (Or.inr (Or.inr h)))
    | ok mw =>
      rw [hs] at hscan
      simp only [raised, Bool.false_eq_true, false_iff] at hscan
      rcases mw with ⟨sm, lw⟩
      simp only [ScreenElement.start, if_neg hl, hs, raised, Bool.false_eq_true,
        false_iff]
      push_neg at hscan ⊢
      refine ⟨by omega, hscan.1, hscan.2.2.1, ?_, ?_⟩
      · intro x hx hpx
        exact hscan.2.1 x hx hpx
      · intro x hx hpx
        exact hscan.2.2.2 x hx hpx

lemma mentionsStr_head (A t B mark rest : String) (hA : A = mark ++ rest) :
    mentionsStr (A ++ t ++ B) mark := by
  refine ⟨"", rest ++ t ++ B, ?_⟩
  subst hA
  simp only [String.empty_append, String.append_assoc]

lemma mentionsStr_mid (A t B1 mark B2 : String) :
    mentionsStr (A ++ t ++ (B1 ++ mark ++ B2)) mark := by
  refine ⟨A ++ t ++ B1, B2, ?_⟩
  simp only [String.append_assoc]

lemma noAttrStart_error_mentions (t c d : String) (attrs : Attrs) (s : ElemState)
    (e : AntemlAttributeError) (h : (noAttrStart t c d attrs s).1 = .error e) :
    mentionsStr e.msg ("<" ++ t ++ ">") := by
  by_cases hl : attrs.length > 0
  · simp only [noAttrStart, if_pos hl, Except.error.injEq] at h
    subst h
    show mentionsStr ("<" ++ t ++ "> tag does not accept attributes (0 expected, " ++
      toString attrs.length ++ " given)") ("<" ++ t ++ ">")
    refine ⟨"", " tag does not accept attributes (0 expected, " ++
      toString attrs.length ++ " given)", ?_⟩
    rw [show ("> tag does not accept attributes (0 expected, " : String) =
      ">" ++ " tag does not accept attributes (0 expected, " from by decide]
    simp only [String.empty_append, String.append_assoc]
  · simp [noAttrStart, hl] at h

lemma runEvents_append (su : Bool) (evs1 evs2 : List Ev) :
    ∀ ps, runEvents su ps (evs1 ++ evs2) =
      match runEvents su ps evs1 with
      | (o1, .error e) => (o1, .error e)
      | (o1, .ok ps1) =>
          (o1 ++ (runEvents su ps1 evs2).1, (runEvents su ps1 evs2).2) := by
  induction evs1 with
  | nil => intro ps; simp [runEvents]
  | cons e evs1 ih =>
    intro ps
    simp only [List.cons_append, runEvents]
    cases stepEv su ps e with
    | error err => rfl
    | ok p =>
      rcases p with ⟨out, ps2⟩
      simp only [List.append_eq]
      rw [ih ps2]
      cases hr : runEvents su ps2 evs1 with
      | mk o1 r =>
        cases r with
        | error err => simp
        | ok ps3 => simp [List.append_assoc]

lemma brStart_error_mentions (attrs : Attrs) (s : ElemState) (e : AntemlAttributeError)
    (h : (BrElement.start attrs s).1 = .error e) : mentionsStr e.msg "<BR>" := by
  by_cases hl : attrs.length > 0
  · simp only [BrElement.start, if_pos hl, Except.error.injEq] at h
    subst h
    exact mentionsStr_head _ _ _ "<BR>"
      " tag does not accept attributes (0 expected, " (by decide)
  · simp [BrElement.start, hl] at h

lemma fwStart_error_mentions (attrs : Attrs) (s : ElemState) (e : AntemlAttributeError)
    (h : (FwElement.start attrs s).1 = .error e) : mentionsStr e.msg "<FW>" := by
  rcases attrs with _ | ⟨⟨n, v⟩, _ | ⟨a2, rest⟩⟩
  · simp only [FwElement.start, Except.error.injEq] at h
    subst h
    exact mentionsStr_head _ _ _ "<FW>"
      " tag has the incorrect number of attributes (exactly 1 expected, " (by decide)
  · cases hp : FontWeight.parse n with
    | some fw => simp [FwElement.start, hp] at h
    | none =>
      simp only [FwElement.start, hp, Except.error.injEq] at h
      subst h
      show mentionsStr ("Invalid #FONTWEIGHT attribute '" ++ n ++ "' on <FW> tag") "<FW>"
      rw [show ("' on <FW> tag" : String) = "' on " ++ "<FW>" ++ " tag" from by decide]
      exact mentionsStr_mid _ _ _ _ _
  · simp only [FwElement.start, Except.error.injEq] at h
    subst h
    exact mentionsStr_head _ _ _ "<FW>"
      " tag has the incorrect number of attributes (exactly 1 expected, " (by decide)

lemma fgStart_error_mentions (attrs : Attrs) (s : ElemState) (e : AntemlAttributeError)
    (h : (FgElement.start attrs s).1 = .error e) : mentionsStr e.msg "<FG>" := by
  rcases attrs with _ | ⟨⟨n, v⟩, _ | ⟨a2, rest⟩⟩
  · simp only [FgElement.start, Except.error.injEq] at h
    subst h
    exact mentionsStr_head _ _ _ "<FG>"
      " tag has the incorrect number of attributes (exactly 1 expected, " (by decide)
  · cases hp : Color.parse n with
    | some r =>
      rcases r with ⟨ct, cf, cb⟩
      simp [FgElement.start, hp] at h
    | none =>
      simp only [FgElement.start, hp, Except.error.injEq] at h
      subst h
      show mentionsStr ("Invalid #COLOR attribute '" ++ n ++ "' on <FG> tag") "<FG>"
      rw [show ("' on <FG> tag" : String) = "' on " ++ "<FG>" ++ " tag" from by decide]
      exact mentionsStr_mid _ _ _ _ _
  · simp only [FgElement.start, Except.error.injEq] at h
    subst h
    exact mentionsStr_head _ _ _ "<FG>"
      " tag has the incorrect number of attributes (exactly 1 expected, " (by decide)

lemma bgStart_error_mentions (attrs : Attrs) (s : ElemState) (e : AntemlAttributeError)
    (h : (BgElement.start attrs s).1 = .error e) : mentionsStr e.msg "<BG>" := by
  rcases attrs with _ | ⟨⟨n, v⟩, _ | ⟨a2, rest⟩⟩
  · simp only [BgElement.start, Except.error.injEq] at h
    subst h
    exact mentionsStr_head _ _ _ "<BG>"
      " tag has the incorrect number of attributes (exactly 1 expected, " (by decide)
  · cases hp : Color.parse n with
    | some r =>
      rcases r with ⟨ct, cf, cb⟩
      simp [BgElement.start, hp] at h
    | none =>
      simp only [BgElement.start, hp, Except.error.injEq] at h
      subst h
      show mentionsStr ("Invalid #COLOR attribute '" ++ n ++ "' on <BG> tag") "<BG>"
      rw [show ("' on <BG> tag" : String) = "' on " ++ "<BG>" ++ " tag" from by decide]
      exact mentionsStr_mid _ _ _ _ _
  · simp only [BgElement.start, Except.error.injEq] at h
    subst h
    exact mentionsStr_head _ _ _ "<BG>"
      " tag has the incorrect number of attributes (exactly 1 expected, " (by decide)

lemma fwStart_attr_mentions (n : String) (v : Option String) (s : ElemState)
    (e : AntemlAttributeError) (h : (FwElement.start [(n, v)] s).1 = .error e) :
    mentionsStr e.msg n := by
  cases hp : FontWeight.parse n with
  | some fw => simp [FwElement.start, hp] at h
  | none =>
    simp only [FwElement.start, hp, Except.error.injEq] at h
    subst h
    exact ⟨"Invalid #FONTWEIGHT attribute '", "' on <FW> tag", rfl⟩

lemma fgStart_attr_mentions (n : String) (v : Option String) (s : ElemState)
    (e : AntemlAttributeError) (h : (FgElement.start [(n, v)] s).1 = .error e) :
    mentionsStr e.msg n := by
  cases hp : Color.parse n with
  | some r =>
    rcases r with ⟨ct, cf, cb⟩
    simp [FgElement.start, hp] at h
  | none =>
    simp only [FgElement.start, hp, Except.error.injEq] at h
    subst h
    exact ⟨"Invalid #COLOR attribute '", "' on <FG> tag", rfl⟩

lemma bgStart_attr_mentions (n : String) (v : Option String) (s : ElemState)
    (e : AntemlAttributeError) (h : (BgElement.start [(n, v)] s).1 = .error e) :
    mentionsStr e.msg n := by
  cases hp : Color.parse n with
  | some r =>
    rcases r with ⟨ct, cf, cb⟩
    simp [BgElement.start, hp] at h
  | none =>
    simp only [BgElement.start, hp, Except.error.injEq] at h
    subst h
    exact ⟨"Invalid #COLOR attribute '", "' on <BG> tag", rfl⟩

lemma determineScreenMode_error_mentions (av : Option String) (e : AntemlAttributeError)
    (h : ScreenElement.determineScreenMode av = .error e) :
    mentionsStr e.msg "<SCREEN>" ∧ mentionsStr e.msg "'MODE'" := by
  cases av with
  | none =>
    simp only [ScreenElement.determineScreenMode, Except.error.injEq] at h
    subst h
    exact ⟨⟨"Attribute 'MODE' specified without value on ", " tag", by decide⟩,
      ⟨"Attribute ", " specified without value on <SCREEN> tag", by decide⟩⟩
  | some v =>
    cases hp : ScreenMode.parse v with
    | some sm => simp [ScreenElement.determineScreenMode, hp] at h
    | none =>
      simp only [ScreenElement.determineScreenMode, hp, Except.error.injEq] at h
      subst h
      constructor
      · show mentionsStr ("Invalide value '" ++ v ++
          "' for 'MODE' attribute on <SCREEN> tag") "<SCREEN>"
        rw [show ("' for 'MODE' attribute on <SCREEN> tag" : String) =
          "' for 'MODE' attribute on " ++ "<SCREEN>" ++ " tag" from by decide]
        exact mentionsStr_mid _ _ _ _ _
      · show mentionsStr ("Invalide value '" ++ v ++
          "' for 'MODE' attribute on <SCREEN> tag") "'MODE'"
        rw [show ("' for 'MODE' attribute on <SCREEN> tag" : String) =
          "' for " ++ "'MODE'" ++ " attribute on <SCREEN> tag" from by decide]
        exact mentionsStr_mid _ _ _ _ _

lemma determineLineWrap_error_mentions (av : Option String) (e : AntemlAttributeError)
    (h : ScreenElement.determineLineWrap av = .error e) :
    mentionsStr e.msg "<SCREEN>" ∧ mentionsStr e.msg "'WRAP'" := by
  cases av with
  | none =>
    simp only [ScreenElement.determineLineWrap, Except.error.injEq] at h
    subst h
    exact ⟨⟨"Attribute 'WRAP' specified without value on ", " tag", by decide⟩,
      ⟨"Attribute ", " specified without value on <SCREEN> tag", by decide⟩⟩
  | some v =>
    cases hp : Boolean.parse v with
    | some b => simp [ScreenElement.determineLineWrap, hp] at h
    | none =>
      simp only [ScreenElement.determineLineWrap, hp, Except.error.injEq] at h
      subst h
      constructor
      · show mentionsStr ("Invalide value '" ++ v ++
          "' for 'WRAP' attribute on <SCREEN> tag") "<SCREEN>"
        rw [show ("' for 'WRAP' attribute on <SCREEN> tag" : String) =
          "' for 'WRAP' attribute on " ++ "<SCREEN>" ++ " tag" from by decide]
        exact mentionsStr_mid _ _ _ _ _
      · show mentionsStr ("Invalide value '" ++ v ++
          "' for 'WRAP' attribute on <SCREEN> tag") "'WRAP'"
        rw [show ("' for 'WRAP' attribute on <SCREEN> tag" : String) =
          "' for " ++ "'WRAP'" ++ " attribute on <SCREEN> tag" from by decide]
        exact mentionsStr_mid _ _ _ _ _

lemma screenScan_error_mentions (attrs : Attrs) :
    ∀ (m : Option String) (w : Option Bool) (e : AntemlAttributeError),
      ScreenElement.screenScan attrs m w = .error e →
        mentionsStr e.msg "<SCREEN>" ∧
          (mentionsStr e.msg "'MODE'" ∨ mentionsStr e.msg "'WRAP'") := by
  induction attrs with
  | nil => intro m w e h; simp [ScreenElement.screenScan] at h
  | cons a rest ih =>
    intro m w e h
    rcases a with ⟨an, av⟩
    by_cases hm : pyLower an = "mode"
    · cases m with
      | some m0 =>
        rw [scan_mode_dup av rest m0 w hm] at h
        simp only [Except.error.injEq] at h
        subst h
        exact ⟨⟨"Attribute 'MODE' specified more than once on ", " tag", by decide⟩,
          Or.inl ⟨"Attribute ", " specified more than once on <SCREEN> tag", by decide⟩⟩
      | none =>
        cases hdet : ScreenElement.determineScreenMode av with
        | error e2 =>
          rw [scan_mode_err rest w hm hdet] at h
          simp only [Except.error.injEq] at h
          subst h
          have hme := determineScreenMode_error_mentions av e2 hdet
          exact ⟨hme.1, Or.inl hme.2⟩
        | ok sm =>
          rw [scan_mode_ok rest w hm hdet] at h
          exact ih _ _ _ h
    · by_cases hw : pyLower an = "wrap"
      · cases w with
        | some w0 =>
          rw [scan_wrap_dup av rest m w0 hw] at h
          simp only [Except.error.injEq] at h
          subst h
          exact ⟨⟨"Attribute 'WRAP' specified more than once on ", " tag", by decide⟩,
            Or.inr ⟨"Attribute ", " specified more than once on <SCREEN> tag", by decide⟩⟩
        | none =>
          cases hdet : ScreenElement.determineLineWrap av with
          | error e2 =>
            rw [scan_wrap_err rest m hw hdet] at h
            simp only [Except.error.injEq] at h
            subst h
            have hme := determineLineWrap_error_mentions av e2 hdet
            exact ⟨hme.1, Or.inr hme.2⟩
          | ok b =>
            rw [scan_wrap_ok rest m hw hdet] at h
            exact ih _ _ _ h
      · rw [scan_other av rest m w hm hw] at h
        exact ih _ _ _ h

lemma screenStart_error_mentions (attrs : Attrs) (s : ElemState)
    (e : AntemlAttributeError) (h : (ScreenElement.start attrs s).1 = .error e) :
    mentionsStr e.msg "<SCREEN>" := by
  by_cases hl : attrs.length > 2
  · simp only [ScreenElement.start, if_pos hl, Except.error.injEq] at h
    subst h
    exact mentionsStr_head _ _ _ "<SCREEN>"
      " tag has too many attributes (max. 2 expected, " (by decide)
  · simp only [ScreenElement.start, if_neg hl] at h
    cases hs : ScreenElement.screenScan attrs none none with
    | error e2 =>
      rw [hs] at h
      simp only [Except.error.injEq] at h
      subst h
      exact (screenScan_error_mentions attrs none none e2 hs).1
    | ok mw =>
      rcases mw with ⟨sm, lw⟩
      rw [hs] at h
      simp at h

lemma screenStart_error_attr_mentions (attrs : Attrs) (s : ElemState)
    (e : AntemlAttributeError) (h : (ScreenElement.start attrs s).1 = .error e) :
    mentionsStr e.msg "'MODE'" ∨ mentionsStr e.msg "'WRAP'" ∨ attrs.length > 2 := by
  by_cases hl : attrs.length > 2
  · exact Or.inr (Or.inr hl)
  · simp only [ScreenElement.start, if_neg hl] at h
    cases hs : ScreenElement.screenScan attrs none none with
    | error e2 =>
      rw [hs] at h
      simp only [Except.error.injEq] at h
      subst h
      rcases (screenScan_error_mentions attrs none none e2 hs).2 with hme | hme
      · exact Or.inl hme
      · exact Or.inr (Or.inl hme)
    | ok mw =>
      rcases mw with ⟨sm, lw⟩
      rw [hs] at h
      simp at h

/-- **C6, amended.** For every concrete element *except* `ANTEML` (which
ignores its attributes entirely and never raises), `start` raises an
`AntemlAttributeError` exactly when the attribute count is wrong for the tag
(for `SCREEN`, per the spec's arity `0–2, mode/wrap each at most once`: more
than two attributes or a repeated `MODE`/`WRAP`), a required attribute value
is missing, or an attribute value fails its grammar; every such error's
message names the tag, and the messages about an attribute name the
offending attribute (`FW`/`FG`/`BG` grammar failures quote the bare
attribute; every `SCREEN` error other than the count error names `'MODE'`
or `'WRAP'`); and the error propagates out of the dispatch operation
uncaught, stopping processing of the document at that point. -/
theorem invalid_markup_exactly_when :
    (∀ (su : Bool) (ps : ParserState) (pre : List Ev) (ev : Ev) (rest : List Ev)
        (outs : List String) (ps1 : ParserState) (e : AntemlAttributeError),
        runEvents su ps pre = (outs, .ok ps1) → stepEv su ps1 ev = .error e →
          runEvents su ps (pre ++ ev :: rest) = (outs, .error e)) ∧
    (∀ attrs s, raised (BrElement.start attrs s).1 = zeroAttrSpecErr attrs) ∧
    (∀ attrs s, raised (IElement.start attrs s).1 = zeroAttrSpecErr attrs) ∧
    (∀ attrs s, raised (UElement.start attrs s).1 = zeroAttrSpecErr attrs) ∧
    (∀ attrs s, raised (SElement.start attrs s).1 = zeroAttrSpecErr attrs) ∧
    (∀ attrs s, raised (BlinkElement.start attrs s).1 = zeroAttrSpecErr attrs) ∧
    (∀ attrs s, raised (InvertElement.start attrs s).1 = zeroAttrSpecErr attrs) ∧
    (∀ attrs s, raised (HideElement.start attrs s).1 = zeroAttrSpecErr attrs) ∧
    (∀ attrs s, raised (FwElement.start attrs s).1 = fwSpecErr attrs) ∧
    (∀ attrs s, raised (FgElement.start attrs s).1 = colorSpecErr attrs) ∧
    (∀ attrs s, raised (BgElement.start attrs s).1 = colorSpecErr attrs) ∧
    (∀ attrs s, raised (ScreenElement.start attrs s).1 = screenSpecErr attrs) ∧
    (∀ t c d attrs s e, (noAttrStart t c d attrs s).1 = .error e →
        mentionsStr e.msg ("<" ++ t ++ ">")) ∧
    (∀ attrs s e, (BrElement.start attrs s).1 = .error e → mentionsStr e.msg "<BR>") ∧
    (∀ attrs s e, (FwElement.start attrs s).1 = .error e → mentionsStr e.msg "<FW>") ∧
    (∀ attrs s e, (FgElement.start attrs s).1 = .error e → mentionsStr e.msg "<FG>") ∧
    (∀ attrs s e, (BgElement.start attrs s).1 = .error e → mentionsStr e.msg "<BG>") ∧
    (∀ attrs s e, (ScreenElement.start attrs s).1 = .error e →
        mentionsStr e.msg "<SCREEN>" ∧
          (mentionsStr e.msg "'MODE'" ∨ mentionsStr e.msg "'WRAP'" ∨
            attrs.length > 2)) ∧
    (∀ n v s e, (FwElement.start [(n, v)] s).1 = .error e → mentionsStr e.msg n) ∧
    (∀ n v s e, (FgElement.start [(n, v)] s).1 = .error e → mentionsStr e.msg n) ∧
    (∀ n v s e, (BgElement.start [(n, v)] s).1 = .error e → mentionsStr e.msg n) := by
  refine ⟨?_, brStart_raised,
    fun attrs s => noAttrStart_raised "I" _ _ attrs s,
    fun attrs s => noAttrStart_raised "U" _ _ attrs s,
    fun attrs s => noAttrStart_raised "S" _ _ attrs s,
    fun attrs s => noAttrStart_raised "BLINK" _ _ attrs s,
    fun attrs s => noAttrStart_raised "INVERT" _ _ attrs s,
    fun attrs s => noAttrStart_raised "HIDE" _ _ attrs s,
    fwStart_raised, fgStart_raised, bgStart_raised, screenStart_raised,
    noAttrStart_error_mentions, brStart_error_mentions, fwStart_error_mentions,
    fgStart_error_mentions, bgStart_error_mentions,
    fun attrs s e h => ⟨screenStart_error_mentions attrs s e h,
      screenStart_error_attr_mentions attrs s e h⟩,
    fwStart_attr_mentions, fgStart_attr_mentions, bgStart_attr_mentions⟩
  intro su ps pre ev rest outs ps1 e h1 h2
  rw [runEvents_append su pre (ev :: rest) ps, h1]
  simp only [runEvents, h2, List.append_nil]

/-- Witness for C6 (amended): a bad `<FW>` open (no attributes) raised during
dispatch surfaces from the run and stops processing. -/
theorem invalid_markup_exactly_when_witness :
    runEvents false ParserState.init ([] ++ Ev.startTag "fw" [] "<FW>" :: []) =
      ([], .error ⟨"<FW> tag has the incorrect number of attributes (exactly 1 expected, 0 given)"⟩) :=
  invalid_markup_exactly_when.1 false ParserState.init [] (Ev.startTag "fw" [] "<FW>")
    [] [] ParserState.init
    ⟨"<FW> tag has the incorrect number of attributes (exactly 1 expected, 0 given)"⟩
    rfl rfl

/-- **C7.** Evaluation of `ScreenMode.parse` at the failing table entry: the
key `"640X200m"` is spelled with an upper-case `X` while `parse` lower-cases
its input, so that entry is unreachable — `parse` returns `none` for the
very name the table (and the class docstring) lists, in every letter case —
whereas the other names resolve case-insensitively and the duplicated name
`"320x200c"` yields the last-listed code `"19"`. -/
theorem screenmode_duplicate_and_unreachable_entries :
    ScreenMode.parse "640X200m" = none ∧
    ScreenMode.parse "640x200m" = none ∧
    ScreenMode.parse "640X200M" = none ∧
    ScreenMode.parse "320x200c" = some "19" ∧
    ScreenMode.parse "320X200C" = some "19" ∧
    ScreenMode.parse "80x25c" = some "3" ∧
    ScreenMode.parse "640x480M" = some "17" ∧
    ScreenMode.parse "nonsense" = none :=
  ⟨rfl, rfl, rfl, rfl, rfl, rfl, rfl, rfl⟩

/-- **C9.** The decimal color grammar strips leading zeros, so every all-zero
input yields kind `"decimal"` with an *empty* payload for both foreground and
background, which `FgElement`/`BgElement` embed as an empty index in the
256-color escape sequence (`ESC[38;5;m` / `ESC[48;5;m`). -/
theorem decimal_zero_strips_to_empty_payload :
    Color.parse "D0" = some ("decimal", "", "") ∧
    Color.parse "D00" = some ("decimal", "", "") ∧
    Color.parse "D000" = some ("decimal", "", "") ∧
    FgElement.start [("d0", none)] ElemState.init =
      (.ok "\x1b[38;5;m", ⟨[FgElement.defaultCode], some "\x1b[38;5;m"⟩) ∧
    BgElement.start [("d0", none)] ElemState.init =
      (.ok "\x1b[48;5;m", ⟨[BgElement.defaultCode], some "\x1b[48;5;m"⟩) :=
  ⟨rfl, rfl, rfl, rfl, rfl⟩

/-- **C3.** Evaluation of `ScreenElement` at the failing input
`<SCREEN MODE=80x25c>` on a fresh handler: `start` returns the open fragment
`ESC[=3h` but — because `push_state` pushes the *previous* state and stores
its argument in `state` — the stack receives the handler default `"\x1b7h"`
while the computed close fragment `ESC[=3l` only lands in `state`; the
matching `end` then pops and returns `"\x1b7h"`, not the close fragment the
claim says it returns. -/
theorem screen_end_returns_prior_state_not_close_fragment :
    ScreenElement.start [("mode", some "80x25c")] ElemState.init =
      (.ok "\x1b[=3h", ⟨["\x1b7h"], some "\x1b[=3l"⟩) ∧
    ScreenElement.close ⟨["\x1b7h"], some "\x1b[=3l"⟩ =
      ("\x1b7h", ⟨[], some "\x1b7h"⟩) ∧
    "\x1b7h" ≠ "\x1b[=3l" :=
  ⟨rfl, rfl, by decide⟩

/-- **C5, counterexample.** Dispatching one `<ANTEML>` start event leaves the
handler's stack empty although the nesting depth of the tag type is then 1:
`AntemlElement.start` never pushes, so stack depth does not track nesting
depth for every element handler. -/
theorem nesting_depth_counterexample :
    handleStarttag "anteml" [] "<ANTEML>" false ParserState.init =
      .ok ([""], ParserState.init) ∧
    ¬ ((AntemlElement.start [] ElemState.init).2.stack.length = nestingDepth [some ""]) :=
  ⟨rfl, by decide⟩

/-- **C6, counterexample.** `AntemlElement.start` raises nothing even when the
attribute count is wrong for the container tag (spec §4.3: it takes no
attributes), so "raises exactly when the count is wrong / a value is missing /
a value fails its grammar" does not hold for every concrete element. -/
theorem invalid_markup_counterexample :
    ¬ ((raised (AntemlElement.start [("foo", none)] ElemState.init).1 = true) ↔
        (zeroAttrSpecErr [("foo", none)] = true)) := by
  decide

end Anteml
